import Mathlib

/-!
# CBT exam session engine: scoring, answer store, progress persistence, timer

A shallow embedding of `src/js/result.js` and `src/js/exam.js`.

* JavaScript objects keyed by question number are association lists
  (`AnswerMap`); `undefined` is `none`.
* Counts and question numbers are natural numbers, option values and epoch
  milliseconds are integers.  All of them stay below `2 ^ 53`, where the
  JavaScript number type represents integers exactly.
* The fractional computations, the score
  `Math.round((correct / totalQuestions) * 100)` and the zoom distances
  `Math.abs(level - zoom)`, are embedded with IEEE-754 binary64
  round-to-nearest-even arithmetic on rationals (`roundDouble`).
* The mutable globals (`state`, `localStorage`) are threaded explicitly as a
  `Session`; every reading of `Date.now()` and every answer of `confirm` is an
  argument of the function that asks for it.
-/

namespace Cbt

/-! ## JavaScript values shared by both pages -/

/-- An answer object (`state.answers`, `data.answers`): the entries
(question, option) of the answered questions. -/
structure AnswerMap where
  entries : List (Nat × Int)
deriving DecidableEq, Repr

namespace AnswerMap

/-- The empty object literal. -/
def empty : AnswerMap := ⟨[]⟩

/-- Entry lookup on the raw entry list. -/
def lookupEntries : List (Nat × Int) → Nat → Option Int
  | [], _ => none
  | (k, v) :: rest, q => if k = q then some v else lookupEntries rest q

/-- Property assignment on the raw entry list: an existing entry is overwritten in
place, a new one is added. -/
def assignEntries : List (Nat × Int) → Nat → Int → List (Nat × Int)
  | [], q, o => [(q, o)]
  | (k, v) :: rest, q, o =>
    if k = q then (q, o) :: rest else (k, v) :: assignEntries rest q o

/-- Property read `answers[q]`; `none` is `undefined`. -/
def lookup (a : AnswerMap) (q : Nat) : Option Int := lookupEntries a.entries q

/-- Property write `answers[q] = o`. -/
def assign (a : AnswerMap) (q : Nat) (o : Int) : AnswerMap := ⟨assignEntries a.entries q o⟩

/-- Property removal `delete answers[q]`. -/
def remove (a : AnswerMap) (q : Nat) : AnswerMap := ⟨a.entries.filter (fun e => e.1 ≠ q)⟩

/-- The own keys `Object.keys(answers)`. -/
def keys (a : AnswerMap) : List Nat := (a.entries.map Prod.fst).dedup

end AnswerMap

/-! ## IEEE-754 binary64 arithmetic (normal range) -/

/-- Round a rational to the nearest integer, ties to the even one. -/
def roundTiesEven (x : ℚ) : ℤ :=
  let f := ⌊x⌋
  let r := x - f
  if r < 1 / 2 then f
  else if 1 / 2 < r then f + 1
  else if f % 2 = 0 then f else f + 1

/-- The exponent of the unit in the last place of the binary64 numbers in the binade
of `q`: with 53 significant bits it is `⌊log₂ |q|⌋ - 52`. -/
def ulpExp (q : ℚ) : ℤ := Int.log 2 |q| - 52

/-- The binary64 number nearest to the rational `q`, ties to even (the rounding every
JavaScript arithmetic operation applies to its exact result).  Faithful for
magnitudes in the normal range, `2 ^ (-1022) ≤ |q| < 2 ^ 1024`. -/
def roundDouble (q : ℚ) : ℚ :=
  if q = 0 then 0 else (roundTiesEven (q / 2 ^ ulpExp q) : ℚ) * 2 ^ ulpExp q

/-- JavaScript `a / b` on finite numbers, `b ≠ 0`. -/
def fdiv (a b : ℚ) : ℚ := roundDouble (a / b)

/-- JavaScript `a * b` on finite numbers. -/
def fmul (a b : ℚ) : ℚ := roundDouble (a * b)

/-- JavaScript `a - b` on finite numbers. -/
def fsub (a b : ℚ) : ℚ := roundDouble (a - b)

/-- JavaScript `Math.abs`. -/
def jsAbs (x : ℚ) : ℚ := |x|

/-- JavaScript `xs[i]` for an index that may be negative; `none` is `undefined`. -/
def jsIndex {α : Type} (xs : List α) (i : Int) : Option α :=
  if i < 0 then none else xs.get? i.toNat

/-- JavaScript `Math.round`: the integer nearest to `x`, halves towards `+∞`. -/
def jsRound (x : ℚ) : ℤ := ⌊x + 1 / 2⌋

/-! ## result.js -/

namespace Result

/-- An entry of `CONFIG.grades`. -/
structure Grade where
  min : Int
  label : String
  cls : String
deriving DecidableEq, Repr

/-- The grade table `CONFIG.grades`, highest threshold first. -/
def CONFIG.grades : List Grade :=
  [ ⟨90, "우수", "grade-excellent"⟩,
    ⟨70, "합격 예상", "grade-good"⟩,
    ⟨50, "노력 필요", "grade-average"⟩,
    ⟨0, "재도전", "grade-poor"⟩ ]

/-- The comparison `score >= min` on a score that is an integer or `NaN` (`none`);
every comparison with `NaN` is false. -/
def scoreGe (score : Option Int) (min : Int) : Bool :=
  match score with
  | none => false
  | some s => decide (min ≤ s)

/-- The loop of `getGrade`: the first band, in table order, whose minimum the score
reaches. -/
def firstBand : List Grade → Option Int → Option Grade
  | [], _ => none
  | g :: rest, score => if scoreGe score g.min then some g else firstBand rest score

/-- Function `getGrade(score)`: the first band reached, else the last band of the table. -/
def getGrade (score : Option Int) : Grade :=
  match firstBand CONFIG.grades score with
  | some g => g
  | none => CONFIG.grades.get ⟨CONFIG.grades.length - 1, by decide⟩

/-- The status strings of a question result. -/
inductive Status where
  | correct
  | incorrect
  | unanswered
deriving DecidableEq, Repr

/-- An element of `questionResults`. -/
structure QuestionResult where
  number : Nat
  userAnswer : Option Int
  correctAnswer : Option Int
  status : Status
deriving DecidableEq, Repr

/-- The submitted-result handoff `state.resultData` read by the results page. -/
structure ResultData where
  subject : String
  year : Int
  type : String
  totalQuestions : Nat
  answers : AnswerMap
  correctAnswers : List Int
  elapsedSeconds : Int
deriving DecidableEq, Repr

/-- The variables the grading loop of `calculateResults` updates. -/
structure Tally where
  correct : Nat
  incorrect : Nat
  unanswered : Nat
  questionResults : List QuestionResult
deriving DecidableEq, Repr

/-- One iteration of the loop of `calculateResults`, for question `i`. -/
def gradeQuestion (data : ResultData) (acc : Tally) (i : Nat) : Tally :=
  let userAnswer := data.answers.lookup i
  let correctAnswer := data.correctAnswers.get? (i - 1)
  if userAnswer = none then
    { acc with
      unanswered := acc.unanswered + 1
      questionResults := acc.questionResults ++ [⟨i, userAnswer, correctAnswer, Status.unanswered⟩] }
  else if userAnswer = correctAnswer then
    { acc with
      correct := acc.correct + 1
      questionResults := acc.questionResults ++ [⟨i, userAnswer, correctAnswer, Status.correct⟩] }
  else
    { acc with
      incorrect := acc.incorrect + 1
      questionResults := acc.questionResults ++ [⟨i, userAnswer, correctAnswer, Status.incorrect⟩] }

/-- The whole loop `for (let i = 1; i <= data.totalQuestions; i++)`. -/
def gradeAll (data : ResultData) : Tally :=
  (List.range' 1 data.totalQuestions).foldl (gradeQuestion data) ⟨0, 0, 0, []⟩

/-- The expression `Math.round((correct / data.totalQuestions) * 100)`; `none` is the
`NaN` that `0 / 0` yields. -/
def computeScore (correct totalQuestions : Nat) : Option Int :=
  if totalQuestions = 0 then none
  else some (jsRound (fmul (fdiv (correct : ℚ) (totalQuestions : ℚ)) 100))

/-- The object `calculateResults` returns. -/
structure Report where
  correct : Nat
  incorrect : Nat
  unanswered : Nat
  score : Option Int
  grade : Grade
  questionResults : List QuestionResult
  elapsedSeconds : Int
  totalQuestions : Nat
deriving DecidableEq, Repr

/-- Function `calculateResults()`, with `state.resultData` as its argument (`none` when
it is `null`). -/
def calculateResults (resultData : Option ResultData) : Option Report :=
  match resultData with
  | none => none
  | some data =>
    let acc := gradeAll data
    let score := computeScore acc.correct data.totalQuestions
    some
      { correct := acc.correct
        incorrect := acc.incorrect
        unanswered := acc.unanswered
        score := score
        grade := getGrade score
        questionResults := acc.questionResults
        elapsedSeconds := data.elapsedSeconds
        totalQuestions := data.totalQuestions }

/-- The string a status is written as in `questionResults`. -/
def Status.str : Status → String
  | Status.correct => "correct"
  | Status.incorrect => "incorrect"
  | Status.unanswered => "unanswered"

/-- The global `state` object of the results page, with what the page shows: the items
of the review grid and the question of the detail modal. -/
structure State where
  resultData : Option ResultData
  filter : String
  currentDetailIndex : Int
  questionResults : List QuestionResult
  reviewGrid : List QuestionResult
  detail : Option QuestionResult
deriving DecidableEq, Repr

/-- The initial value of `state` over a parsed `examResult` handoff; nothing is shown
yet. -/
def State.initial (resultData : Option ResultData) : State :=
  { resultData := resultData
    filter := "all"
    currentDetailIndex := 0
    questionResults := []
    reviewGrid := []
    detail := none }

/-- Function `renderReviewGrid(questionResults)`: the grid shows `filteredResults`. -/
def renderReviewGrid (questionResults : List QuestionResult) (s : State) : State :=
  let filteredResults :=
    if s.filter = "all" then questionResults
    else questionResults.filter (fun q => q.status.str = s.filter)
  { s with reviewGrid := filteredResults }

/-- Function `renderResults()`, as far as the review is concerned: the grid is rendered
and the results are stored for the detail modal.  Without result data nothing is
rendered (the page redirects). -/
def renderResults (s : State) : State :=
  match calculateResults s.resultData with
  | none => s
  | some results =>
    { renderReviewGrid results.questionResults s with questionResults := results.questionResults }

/-- Function `setFilter(filter)`. -/
def setFilter (filter : String) (s : State) : State :=
  renderReviewGrid s.questionResults { s with filter := filter }

/-- Function `updateDetailModal()`: the modal shows the question at the current detail
index, and keeps what it showed when there is none. -/
def updateDetailModal (s : State) : State :=
  match jsIndex s.questionResults s.currentDetailIndex with
  | none => s
  | some question => { s with detail := some question }

/-- The call `state.questionResults.findIndex(q => q.number === questionNumber)`; `-1`
when no element matches. -/
def findIndexByNumber (questionResults : List QuestionResult) (questionNumber : Nat) : Int :=
  match questionResults.findIdx? (fun q => q.number = questionNumber) with
  | some i => (i : Int)
  | none => -1

/-- Function `showDetailModal(questionNumber)`. -/
def showDetailModal (questionNumber : Nat) (s : State) : State :=
  updateDetailModal
    { s with currentDetailIndex := findIndexByNumber s.questionResults questionNumber }

/-- Function `prevDetail()`. -/
def prevDetail (s : State) : State :=
  if s.currentDetailIndex > 0 then
    updateDetailModal { s with currentDetailIndex := s.currentDetailIndex - 1 }
  else s

/-- Function `nextDetail()`. -/
def nextDetail (s : State) : State :=
  if s.currentDetailIndex < (s.questionResults.length : Int) - 1 then
    updateDetailModal { s with currentDetailIndex := s.currentDetailIndex + 1 }
  else s

/-- A click on one of the two navigation buttons of the detail modal. -/
inductive DetailNav where
  | next
  | prev
deriving DecidableEq, Repr

/-- The handler a navigation click runs. -/
def DetailNav.run : DetailNav → State → State
  | DetailNav.next, s => nextDetail s
  | DetailNav.prev, s => prevDetail s

/-- A finite sequence of navigation clicks, handled one after the other. -/
def runDetailNav (clicks : List DetailNav) (s : State) : State :=
  clicks.foldl (fun st click => click.run st) s

end Result

/-! ## exam.js -/

namespace Exam

/-- The constant `CONFIG.defaultQuestions`. -/
def CONFIG.defaultQuestions : Nat := 20

/-- The constant `CONFIG.defaultZoom`. -/
def CONFIG.defaultZoom : ℚ := 1

/-- The global `state` object of the exam page. -/
structure State where
  subject : Option String
  year : Option Int
  type : Option String
  totalQuestions : Nat
  answers : AnswerMap
  correctAnswers : List Int
  pdfDoc : Option Nat
  currentPage : Nat
  totalPages : Nat
  zoom : ℚ
  startTime : Option Int
  timerInterval : Bool
  elapsedSeconds : Int
deriving DecidableEq, Repr

/-- The initial value of `state`. -/
def State.initial : State :=
  { subject := none
    year := none
    type := none
    totalQuestions := CONFIG.defaultQuestions
    answers := AnswerMap.empty
    correctAnswers := []
    pdfDoc := none
    currentPage := 1
    totalPages := 1
    zoom := CONFIG.defaultZoom
    startTime := none
    timerInterval := false
    elapsedSeconds := 0 }

/-- The object `progressData` that `saveProgress` serialises and `loadProgress` parses. -/
structure Progress where
  answers : AnswerMap
  elapsedSeconds : Int
  timestamp : Int
deriving DecidableEq, Repr

/-- The progress items of `localStorage`: the record stored under each key, if any.
Items under progress keys are written by `saveProgress` only, so each is the JSON
text of a `Progress`. -/
abbrev Storage := String → Option Progress

/-- Call `localStorage.setItem(key, JSON.stringify(data))`. -/
def Storage.setItem (st : Storage) (key : String) (data : Progress) : Storage :=
  fun k => if k = key then some data else st k

/-- Call `localStorage.removeItem(key)`. -/
def Storage.removeItem (st : Storage) (key : String) : Storage :=
  fun k => if k = key then none else st k

/-- The object `resultData` that `submitExam` hands to the results page; `submittedAt`
is the instant whose ISO-8601 text is stored. -/
structure ExamResult where
  subject : Option String
  year : Option Int
  type : Option String
  totalQuestions : Nat
  answers : AnswerMap
  correctAnswers : List Int
  elapsedSeconds : Int
  submittedAt : Int
deriving DecidableEq, Repr

/-- The page's mutable world: `state`, `localStorage`, the item `examResult` of
`sessionStorage`, and what it has shown or scheduled so far (messages passed to
`confirm`, toasts, a pending redirect). -/
structure Session where
  state : State
  localStorage : Storage
  examResult : Option ExamResult
  confirms : List String
  toasts : List (String × String)
  redirect : Option String

/-- A template-literal rendering of a string that may be `null`. -/
def showStr : Option String → String
  | none => "null"
  | some s => s

/-- A template-literal rendering of `state.year` (`none` is `NaN`). -/
def showYear : Option Int → String
  | none => "NaN"
  | some y => toString y

/-- Function `getProgressKey()`. -/
def getProgressKey (s : State) : String :=
  "exam_progress_" ++ showStr s.subject ++ "_" ++ showYear s.year ++ "_" ++ showStr s.type

/-- Function `parseUrlParams()`.  `subject` and `type` are what `params.get` returns,
`year` is what `parseInt(params.get('year'))` returns (`none` for `NaN`).  An
empty string, `NaN` and `0` are falsy. -/
def parseUrlParams (subject : Option String) (year : Option Int) (type : Option String)
    (w : Session) : Session × Bool :=
  let ty := if type = none ∨ type = some "" then some "national" else type
  let w1 := { w with state := { w.state with subject := subject, year := year, type := ty } }
  if subject = none ∨ subject = some "" ∨ year = none ∨ year = some 0 then
    ({ w1 with
        toasts := w1.toasts ++ [("잘못된 접근입니다. 메인 페이지로 이동합니다.", "error")]
        redirect := some "index.html" }, false)
  else (w1, true)

/-- Function `startTimer()`, reading the clock as `now`. -/
def startTimer (now : Int) (w : Session) : Session :=
  { w with state := { w.state with startTime := some now, timerInterval := true } }

/-- Function `updateTimer()`, reading the clock as `now`.  The operands are integers
below `2 ^ 53`, where `Math.floor(x / 1000)` is the integer floor division; a `null`
start time counts as `0`. -/
def updateTimer (now : Int) (w : Session) : Session :=
  { w with state := { w.state with elapsedSeconds := (now - w.state.startTime.getD 0) / 1000 } }

/-- Function `stopTimer()`. -/
def stopTimer (w : Session) : Session :=
  if w.state.timerInterval then { w with state := { w.state with timerInterval := false } }
  else w

/-- Function `loadPdf()`; `numPages` is the page count of the loaded document, `none`
when loading fails.  On success `renderPage(1)` leaves `currentPage = 1`. -/
def loadPdf (numPages : Option Nat) (w : Session) : Session :=
  match numPages with
  | some n =>
    { w with
      state := { w.state with pdfDoc := some n, totalPages := n, currentPage := 1 }
      toasts := w.toasts ++ [("PDF 로드 완료", "success")] }
  | none => { w with toasts := w.toasts ++ [("PDF 파일을 찾을 수 없습니다.", "warning")] }

/-- The parsed answer file: `data.answers` and `data.examInfo?.totalQuestions`, each
possibly missing. -/
structure AnswerFile where
  answers : Option (List Int)
  totalQuestions : Option Nat
deriving DecidableEq, Repr

/-- Function `loadAnswers()`; `fetched` is the parsed answer file, `none` when the fetch
or the parse fails.  In `a || b` the number `0` is falsy. -/
def loadAnswers (fetched : Option AnswerFile) (w : Session) : Session :=
  match fetched with
  | some data =>
    let fromInfo := data.totalQuestions.getD 0
    let fromKey := (data.answers.map List.length).getD 0
    let total :=
      if fromInfo ≠ 0 then fromInfo
      else if fromKey ≠ 0 then fromKey
      else CONFIG.defaultQuestions
    { w with
      state := { w.state with correctAnswers := data.answers.getD [], totalQuestions := total }
      toasts := w.toasts ++ [("정답 데이터 로드 완료", "success")] }
  | none =>
    { w with
      state := { w.state with totalQuestions := CONFIG.defaultQuestions }
      toasts := w.toasts ++ [("정답 파일이 없습니다. 기본 20문항으로 설정됩니다.", "warning")] }

/-- Function `saveProgress()`, reading the clock as `now`. -/
def saveProgress (now : Int) (w : Session) : Session :=
  let progressData : Progress :=
    { answers := w.state.answers
      elapsedSeconds := w.state.elapsedSeconds
      timestamp := now }
  { w with localStorage := w.localStorage.setItem (getProgressKey w.state) progressData }

/-- Function `selectAnswer(question, option)`; `now` is the clock reading of the
`saveProgress` call that ends it. -/
def selectAnswer (question : Nat) (option : Int) (now : Int) (w : Session) : Session :=
  let answers :=
    if w.state.answers.lookup question = some option then w.state.answers.remove question
    else w.state.answers.assign question option
  saveProgress now { w with state := { w.state with answers := answers } }

/-- Function `clearProgress()`. -/
def clearProgress (w : Session) : Session :=
  { w with localStorage := w.localStorage.removeItem (getProgressKey w.state) }

/-- Function `loadProgress()`.  `nowCheck` is the clock reading of the staleness test,
`accept` the answer `confirm` gives if it is asked, `nowRestore` the clock reading
taken after an accepted offer. -/
def loadProgress (nowCheck : Int) (accept : Bool) (nowRestore : Int) (w : Session) : Session :=
  match w.localStorage (getProgressKey w.state) with
  | none => w
  | some data =>
    if nowCheck - data.timestamp > 24 * 60 * 60 * 1000 then
      { w with localStorage := w.localStorage.removeItem (getProgressKey w.state) }
    else if data.answers.keys.length > 0 then
      let w1 := { w with confirms := w.confirms ++ ["이전에 풀던 답안이 있습니다. 복원하시겠습니까?"] }
      if accept then
        let startTime :=
          if data.elapsedSeconds ≠ 0 then some (nowRestore - data.elapsedSeconds * 1000)
          else w1.state.startTime
        { w1 with
          state := { w1.state with answers := data.answers, startTime := startTime }
          toasts := w1.toasts ++ [("이전 답안을 복원했습니다.", "success")] }
      else
        { w1 with localStorage := w1.localStorage.removeItem (getProgressKey w1.state) }
    else w

/-- What the environment supplies to one run of `init()`: the URL parameters, the
answer file, the stored-progress dialogue, the document, and the clock readings. -/
structure InitEnv where
  subject : Option String
  year : Option Int
  type : Option String
  fetched : Option AnswerFile
  nowCheck : Int
  accept : Bool
  nowRestore : Int
  numPages : Option Nat
  nowTimer : Int

/-- Function `init()` of the exam page: parse the URL, load the answer key, load the
stored progress, load the document, start the timer. -/
def init (env : InitEnv) (w : Session) : Session :=
  let (w1, ok) := parseUrlParams env.subject env.year env.type w
  if ok then
    startTimer env.nowTimer
      (loadPdf env.numPages
        (loadProgress env.nowCheck env.accept env.nowRestore
          (loadAnswers env.fetched w1)))
  else w1

/-- The world when the page's script has been evaluated, over a given `localStorage`. -/
def Session.initial (stored : Storage) : Session :=
  { state := State.initial
    localStorage := stored
    examResult := none
    confirms := []
    toasts := []
    redirect := none }

/-- The constant `CONFIG.zoomLevels`. -/
def CONFIG.zoomLevels : List ℚ := [1, 1.25, 1.5, 1.75, 2, 2.5, 3]

/-- Function `renderPage(pageNum)`.  The page itself comes from the external renderer:
`delivered` tells whether `state.pdfDoc.getPage(pageNum)` and the rendering resolve.
When they do not the call fails before it writes `state.currentPage`. -/
def renderPage (pageNum : Nat) (delivered : Bool) (w : Session) : Session :=
  match w.state.pdfDoc with
  | none => w
  | some _ =>
    if delivered then { w with state := { w.state with currentPage := pageNum } } else w

/-- Function `prevPage()`. -/
def prevPage (delivered : Bool) (w : Session) : Session :=
  if w.state.currentPage > 1 then renderPage (w.state.currentPage - 1) delivered w else w

/-- Function `nextPage()`. -/
def nextPage (delivered : Bool) (w : Session) : Session :=
  if w.state.currentPage < w.state.totalPages then
    renderPage (w.state.currentPage + 1) delivered w
  else w

/-- One iteration of the loop of `findClosestZoomIndex`, for index `i`; the pair is
(`closestIndex`, `minDiff`). -/
def findClosestStep (zoom : ℚ) (acc : Nat × ℚ) (i : Nat) : Nat × ℚ :=
  let diff := jsAbs (fsub (CONFIG.zoomLevels.getD i 0) zoom)
  if diff < acc.2 then (i, diff) else acc

/-- Function `findClosestZoomIndex(zoom)`. -/
def findClosestZoomIndex (zoom : ℚ) : Nat :=
  ((List.range' 1 (CONFIG.zoomLevels.length - 1)).foldl (findClosestStep zoom)
    (0, jsAbs (fsub (CONFIG.zoomLevels.getD 0 0) zoom))).1

/-- Function `updateZoom()`: it refreshes the zoom display and renders the current page
again when a document is loaded. -/
def updateZoom (delivered : Bool) (w : Session) : Session :=
  match w.state.pdfDoc with
  | none => w
  | some _ => renderPage w.state.currentPage delivered w

/-- Function `zoomIn()`. -/
def zoomIn (delivered : Bool) (w : Session) : Session :=
  let currentIndex := findClosestZoomIndex w.state.zoom
  if currentIndex < CONFIG.zoomLevels.length - 1 then
    updateZoom delivered
      { w with state := { w.state with zoom := CONFIG.zoomLevels.getD (currentIndex + 1) 0 } }
  else w

/-- Function `zoomOut()`. -/
def zoomOut (delivered : Bool) (w : Session) : Session :=
  let currentIndex := findClosestZoomIndex w.state.zoom
  if currentIndex > 0 then
    updateZoom delivered
      { w with state := { w.state with zoom := CONFIG.zoomLevels.getD (currentIndex - 1) 0 } }
  else w

/-- Function `zoomReset()`. -/
def zoomReset (delivered : Bool) (w : Session) : Session :=
  updateZoom delivered { w with state := { w.state with zoom := 1 } }

/-- Function `resetAnswers()`; `accept` is the answer `confirm` gives, `now` the clock
reading of the `saveProgress` call. -/
def resetAnswers (accept : Bool) (now : Int) (w : Session) : Session :=
  let w1 := { w with confirms := w.confirms ++ ["모든 답안을 초기화하시겠습니까?"] }
  if accept then
    let w2 := saveProgress now { w1 with state := { w1.state with answers := AnswerMap.empty } }
    { w2 with toasts := w2.toasts ++ [("답안이 초기화되었습니다.", "info")] }
  else w1

/-- Function `submitExam()`, reading the clock as `now` for `submittedAt`. -/
def submitExam (now : Int) (w : Session) : Session :=
  let w1 := clearProgress (stopTimer w)
  let resultData : ExamResult :=
    { subject := w1.state.subject
      year := w1.state.year
      type := w1.state.type
      totalQuestions := w1.state.totalQuestions
      answers := w1.state.answers
      correctAnswers := w1.state.correctAnswers
      elapsedSeconds := w1.state.elapsedSeconds
      submittedAt := now }
  { w1 with examResult := some resultData, redirect := some "result.html" }

/-- A click on one of the three zoom buttons. -/
inductive ZoomOp where
  | zoomIn
  | zoomOut
  | zoomReset
deriving DecidableEq, Repr

/-- The handler a zoom click runs; `delivered` is the outcome of the rendering it
triggers. -/
def ZoomOp.run : ZoomOp → Bool → Session → Session
  | ZoomOp.zoomIn, delivered, w => Exam.zoomIn delivered w
  | ZoomOp.zoomOut, delivered, w => Exam.zoomOut delivered w
  | ZoomOp.zoomReset, delivered, w => Exam.zoomReset delivered w

/-- A finite sequence of zoom clicks, handled one after the other. -/
def runZoomOps (clicks : List (ZoomOp × Bool)) (w : Session) : Session :=
  clicks.foldl (fun v click => click.1.run click.2 v) w

end Exam

/-! ## result.js: the stored progress -/

namespace Result

/-- The key `progressKey` that `retryExam` builds from the result data. -/
def progressKey (data : ResultData) : String :=
  "exam_progress_" ++ data.subject ++ "_" ++ toString data.year ++ "_" ++ data.type

/-- Function `retryExam()`, as far as `localStorage` is concerned: with result data it
removes the progress item of the exam and then navigates to the exam page. -/
def retryExam (resultData : Option ResultData) (localStorage : Exam.Storage) : Exam.Storage :=
  match resultData with
  | none => localStorage
  | some data => localStorage.removeItem (progressKey data)

end Result

end Cbt

/-! # Theorems -/

namespace Cbt

namespace Result

/-! ## Scoring: the grading loop -/

/-- The question result the loop body records for question `i`. -/
theorem gradeQuestion_questionResults (data : ResultData) (acc : Tally) (i : Nat) :
    (gradeQuestion data acc i).questionResults =
      acc.questionResults ++
        [⟨i, data.answers.lookup i, data.correctAnswers.get? (i - 1),
          if data.answers.lookup i = none then Status.unanswered
          else if data.answers.lookup i = data.correctAnswers.get? (i - 1) then Status.correct
          else Status.incorrect⟩] := by
  unfold gradeQuestion
  dsimp only
  split_ifs <;> rfl

/-- Each iteration adds one to exactly one of the three counters. -/
theorem gradeQuestion_counts (data : ResultData) (acc : Tally) (i : Nat) :
    (gradeQuestion data acc i).correct + (gradeQuestion data acc i).incorrect +
        (gradeQuestion data acc i).unanswered =
      acc.correct + acc.incorrect + acc.unanswered + 1 := by
  unfold gradeQuestion
  dsimp only
  split_ifs <;> dsimp only <;> omega

/-- Over any run of questions the counters grow by the number of questions. -/
theorem foldl_gradeQuestion_counts (data : ResultData) (l : List Nat) (acc : Tally) :
    (l.foldl (gradeQuestion data) acc).correct + (l.foldl (gradeQuestion data) acc).incorrect +
        (l.foldl (gradeQuestion data) acc).unanswered =
      acc.correct + acc.incorrect + acc.unanswered + l.length := by
  induction l generalizing acc with
  | nil => simp
  | cons i rest ih =>
    rw [List.foldl_cons, ih, gradeQuestion_counts, List.length_cons]
    omega

/-- Over any run of questions the loop appends one result a question, in order. -/
theorem foldl_gradeQuestion_questionResults (data : ResultData) (l : List Nat) (acc : Tally) :
    (l.foldl (gradeQuestion data) acc).questionResults =
      acc.questionResults ++
        l.map (fun i =>
          (⟨i, data.answers.lookup i, data.correctAnswers.get? (i - 1),
            if data.answers.lookup i = none then Status.unanswered
            else if data.answers.lookup i = data.correctAnswers.get? (i - 1) then Status.correct
            else Status.incorrect⟩ : QuestionResult)) := by
  induction l generalizing acc with
  | nil => simp
  | cons i rest ih =>
    rw [List.foldl_cons, ih, gradeQuestion_questionResults, List.map_cons, List.append_assoc]
    rfl

/-- C1. For every answer map, correct-answer key (of any length) and question count,
`calculateResults` returns a report whose three counters add up to the question
count: `correct + incorrect + unanswered = totalQuestions`. -/
theorem calculateResults_counts_sum (data : ResultData) :
    ∃ r : Report, calculateResults (some data) = some r ∧
      r.totalQuestions = data.totalQuestions ∧
      r.correct + r.incorrect + r.unanswered = data.totalQuestions := by
  refine ⟨_, rfl, rfl, ?_⟩
  show (gradeAll data).correct + (gradeAll data).incorrect + (gradeAll data).unanswered = _
  unfold gradeAll
  rw [foldl_gradeQuestion_counts]
  simp

/-- C2. For every question `q` in `1..totalQuestions`, the report of `calculateResults`
holds at position `q - 1` the result of question `q`, and its status is `unanswered`
exactly when the answer map has no entry for `q`, `correct` exactly when the user's
answer and the key's entry at index `q - 1` are both present and equal, and
`incorrect` exactly in the remaining case (an answer that differs from the key's
entry), which includes every answered question whose key entry is missing. -/
theorem calculateResults_status (data : ResultData) (q : Nat) (h1 : 1 ≤ q)
    (hq : q ≤ data.totalQuestions) :
    ∃ r : Report, calculateResults (some data) = some r ∧
      ∃ qr : QuestionResult, r.questionResults.get? (q - 1) = some qr ∧
        qr.number = q ∧
        qr.userAnswer = data.answers.lookup q ∧
        qr.correctAnswer = data.correctAnswers.get? (q - 1) ∧
        (qr.status = Status.unanswered ↔ data.answers.lookup q = none) ∧
        (qr.status = Status.correct ↔
          ∃ u : Int, data.answers.lookup q = some u ∧
            data.correctAnswers.get? (q - 1) = some u) ∧
        (qr.status = Status.incorrect ↔
          ∃ u : Int, data.answers.lookup q = some u ∧
            data.correctAnswers.get? (q - 1) ≠ some u) ∧
        (data.answers.lookup q ≠ none → data.correctAnswers.get? (q - 1) = none →
          qr.status = Status.incorrect) := by
  refine ⟨_, rfl, ?_⟩
  show ∃ qr : QuestionResult, (gradeAll data).questionResults.get? (q - 1) = some qr ∧ _
  unfold gradeAll
  rw [foldl_gradeQuestion_questionResults]
  have hlt : q - 1 < data.totalQuestions := by omega
  have hq1 : 1 + (q - 1) = q := by omega
  refine ⟨⟨q, data.answers.lookup q, data.correctAnswers.get? (q - 1),
    if data.answers.lookup q = none then Status.unanswered
    else if data.answers.lookup q = data.correctAnswers.get? (q - 1) then Status.correct
    else Status.incorrect⟩, ?_, ?_⟩
  · simp only [List.nil_append, List.get?_eq_getElem?, List.getElem?_map]
    rw [List.getElem?_range' 1 1 hlt]
    simp only [Option.map_some', Nat.one_mul, hq1]
  · cases hu : data.answers.lookup q with
    | none => simp
    | some u =>
      cases hc : data.correctAnswers.get? (q - 1) with
      | none => simp
      | some c =>
        by_cases huc : u = c
        · subst huc; simp
        · have hcu : ¬ c = u := fun h => huc h.symm
          simp [huc, hcu]

/-! ## Scoring: the grade table -/

/-- C4. For every integer score in `0..100`, `getGrade` returns the band of
`CONFIG.grades` with the greatest minimum that is at most the score: the 90-band
(grade-excellent) for `90..100`, the 70-band (grade-good) for `70..89`, the 50-band
(grade-average) for `50..69` and the 0-band (grade-poor) for `0..49`; so 75 is good,
100 is excellent and 0 is poor. -/
theorem getGrade_greatest_band (s : Int) (h0 : 0 ≤ s) (h100 : s ≤ 100) :
    getGrade (some s) ∈ CONFIG.grades ∧
      (getGrade (some s)).min ≤ s ∧
      (∀ g ∈ CONFIG.grades, g.min ≤ s → g.min ≤ (getGrade (some s)).min) ∧
      (90 ≤ s → getGrade (some s) = ⟨90, "우수", "grade-excellent"⟩) ∧
      (70 ≤ s → s ≤ 89 → getGrade (some s) = ⟨70, "합격 예상", "grade-good"⟩) ∧
      (50 ≤ s → s ≤ 69 → getGrade (some s) = ⟨50, "노력 필요", "grade-average"⟩) ∧
      (s ≤ 49 → getGrade (some s) = ⟨0, "재도전", "grade-poor"⟩) ∧
      (getGrade (some 75)).cls = "grade-good" ∧
      (getGrade (some 100)).cls = "grade-excellent" ∧
      (getGrade (some 0)).cls = "grade-poor" := by
  have e90 : 90 ≤ s → getGrade (some s) = ⟨90, "우수", "grade-excellent"⟩ := by
    intro h
    simp [getGrade, firstBand, CONFIG.grades, scoreGe, h]
  have e70 : 70 ≤ s → s ≤ 89 → getGrade (some s) = ⟨70, "합격 예상", "grade-good"⟩ := by
    intro h h'
    have n90 : ¬ 90 ≤ s := by omega
    simp [getGrade, firstBand, CONFIG.grades, scoreGe, h, n90]
  have e50 : 50 ≤ s → s ≤ 69 → getGrade (some s) = ⟨50, "노력 필요", "grade-average"⟩ := by
    intro h h'
    have n90 : ¬ 90 ≤ s := by omega
    have n70 : ¬ 70 ≤ s := by omega
    simp [getGrade, firstBand, CONFIG.grades, scoreGe, h, n90, n70]
  have e0 : s ≤ 49 → getGrade (some s) = ⟨0, "재도전", "grade-poor"⟩ := by
    intro h'
    have n90 : ¬ 90 ≤ s := by omega
    have n70 : ¬ 70 ≤ s := by omega
    have n50 : ¬ 50 ≤ s := by omega
    simp [getGrade, firstBand, CONFIG.grades, scoreGe, h0, n90, n70, n50]
  refine ⟨?_, ?_, ?_, e90, e70, e50, e0, ?_, ?_, ?_⟩
  · by_cases c90 : 90 ≤ s
    · rw [e90 c90]; simp [CONFIG.grades]
    · by_cases c70 : 70 ≤ s
      · rw [e70 c70 (by omega)]; simp [CONFIG.grades]
      · by_cases c50 : 50 ≤ s
        · rw [e50 c50 (by omega)]; simp [CONFIG.grades]
        · rw [e0 (by omega)]; simp [CONFIG.grades]
  · by_cases c90 : 90 ≤ s
    · rw [e90 c90]; exact c90
    · by_cases c70 : 70 ≤ s
      · rw [e70 c70 (by omega)]; exact c70
      · by_cases c50 : 50 ≤ s
        · rw [e50 c50 (by omega)]; exact c50
        · rw [e0 (by omega)]; exact h0
  · intro g hg hle
    simp only [CONFIG.grades, List.mem_cons, List.mem_singleton, List.not_mem_nil, or_false] at hg
    by_cases c90 : 90 ≤ s
    · rw [e90 c90]
      rcases hg with rfl | rfl | rfl | rfl <;> simp
    · by_cases c70 : 70 ≤ s
      · rw [e70 c70 (by omega)]
        rcases hg with rfl | rfl | rfl | rfl <;> simp at hle ⊢
        omega
      · by_cases c50 : 50 ≤ s
        · rw [e50 c50 (by omega)]
          rcases hg with rfl | rfl | rfl | rfl <;> simp at hle ⊢ <;> omega
        · rw [e0 (by omega)]
          rcases hg with rfl | rfl | rfl | rfl <;> simp at hle ⊢ <;> omega
  · simp [getGrade, firstBand, CONFIG.grades, scoreGe]
  · simp [getGrade, firstBand, CONFIG.grades, scoreGe]
  · simp [getGrade, firstBand, CONFIG.grades, scoreGe]

/-- C4, at a concrete score: 82 lies in `0..100` and is graded with the 70-band. -/
theorem getGrade_greatest_band_witness :
    (0 : Int) ≤ 82 ∧ (82 : Int) ≤ 100 ∧ (getGrade (some 82)).min = 70 :=
  ⟨by decide, by decide,
    by rw [(getGrade_greatest_band 82 (by decide) (by decide)).2.2.2.2.1 (by decide) (by decide)]⟩

/-- C2, at a concrete input: three questions, the first answered as the key says, the
second answered against the key, the third unanswered; question 2 is incorrect. -/
theorem calculateResults_status_witness :
    ∃ r : Report,
      calculateResults (some ⟨"korean", 2024, "national", 3, ⟨[(1, 4), (2, 1)]⟩, [4, 2, 3], 60⟩) =
        some r ∧
      ∃ qr : QuestionResult, r.questionResults.get? 1 = some qr ∧ qr.status = Status.incorrect := by
  obtain ⟨r, hr, qr, hqr, -, -, -, -, -, hinc, -⟩ :=
    calculateResults_status ⟨"korean", 2024, "national", 3, ⟨[(1, 4), (2, 1)]⟩, [4, 2, 3], 60⟩ 2
      (by decide) (by decide)
  exact ⟨r, hr, qr, hqr, hinc.2 ⟨1, by decide, by decide⟩⟩

end Result

/-! ## The answer object -/

namespace AnswerMap

/-- Lookup on a non-empty entry list, unfolded one step. -/
theorem lookupEntries_cons (k : Nat) (v : Int) (rest : List (Nat × Int)) (q : Nat) :
    lookupEntries ((k, v) :: rest) q = if k = q then some v else lookupEntries rest q := rfl

/-- Assignment on a non-empty entry list, unfolded one step. -/
theorem assignEntries_cons (k : Nat) (v : Int) (rest : List (Nat × Int)) (q : Nat) (o : Int) :
    assignEntries ((k, v) :: rest) q o =
      if k = q then (q, o) :: rest else (k, v) :: assignEntries rest q o := rfl

/-- After an assignment the assigned key is found with the assigned value. -/
theorem lookupEntries_assignEntries_self (l : List (Nat × Int)) (q : Nat) (o : Int) :
    lookupEntries (assignEntries l q o) q = some o := by
  induction l with
  | nil => simp [assignEntries, lookupEntries]
  | cons e rest ih =>
    obtain ⟨k, v⟩ := e
    rw [assignEntries_cons]
    by_cases h : k = q
    · rw [if_pos h, lookupEntries_cons, if_pos rfl]
    · rw [if_neg h, lookupEntries_cons, if_neg h, ih]

/-- An assignment does not change what another key is found with. -/
theorem lookupEntries_assignEntries_ne (l : List (Nat × Int)) (q : Nat) (o : Int) (q' : Nat)
    (hne : q' ≠ q) : lookupEntries (assignEntries l q o) q' = lookupEntries l q' := by
  have hne' : ¬ q = q' := fun h => hne h.symm
  induction l with
  | nil => simp [assignEntries, lookupEntries, hne']
  | cons e rest ih =>
    obtain ⟨k, v⟩ := e
    rw [assignEntries_cons]
    by_cases h : k = q
    · rw [if_pos h, lookupEntries_cons, if_neg hne', lookupEntries_cons, if_neg (h ▸ hne')]
    · rw [if_neg h, lookupEntries_cons, lookupEntries_cons, ih]

/-- After filtering a key out it is not found. -/
theorem lookupEntries_filter_self (l : List (Nat × Int)) (q : Nat) :
    lookupEntries (l.filter (fun e => e.1 ≠ q)) q = none := by
  induction l with
  | nil => rfl
  | cons e rest ih =>
    obtain ⟨k, v⟩ := e
    rw [List.filter_cons]
    by_cases h : k = q
    · rw [if_neg (by simpa using h)]
      exact ih
    · rw [if_pos (by simpa using h), lookupEntries_cons, if_neg h]
      exact ih

/-- Filtering a key out does not change what another key is found with. -/
theorem lookupEntries_filter_ne (l : List (Nat × Int)) (q q' : Nat) (hne : q' ≠ q) :
    lookupEntries (l.filter (fun e => e.1 ≠ q)) q' = lookupEntries l q' := by
  induction l with
  | nil => rfl
  | cons e rest ih =>
    obtain ⟨k, v⟩ := e
    rw [List.filter_cons]
    by_cases h : k = q
    · have h' : ¬ k = q' := fun h2 => hne (h2.symm.trans h)
      rw [if_neg (by simpa using h), lookupEntries_cons, if_neg h']
      exact ih
    · rw [if_pos (by simpa using h), lookupEntries_cons, lookupEntries_cons, ih]

/-- Reading a property just written gives the value written. -/
theorem lookup_assign_self (a : AnswerMap) (q : Nat) (o : Int) :
    (a.assign q o).lookup q = some o :=
  lookupEntries_assignEntries_self a.entries q o

/-- Writing a property leaves every other property as it was. -/
theorem lookup_assign_ne (a : AnswerMap) (q : Nat) (o : Int) (q' : Nat) (hne : q' ≠ q) :
    (a.assign q o).lookup q' = a.lookup q' :=
  lookupEntries_assignEntries_ne a.entries q o q' hne

/-- Reading a deleted property gives `undefined`. -/
theorem lookup_remove_self (a : AnswerMap) (q : Nat) : (a.remove q).lookup q = none :=
  lookupEntries_filter_self a.entries q

/-- Deleting a property leaves every other property as it was. -/
theorem lookup_remove_ne (a : AnswerMap) (q q' : Nat) (hne : q' ≠ q) :
    (a.remove q).lookup q' = a.lookup q' :=
  lookupEntries_filter_ne a.entries q q' hne

end AnswerMap

namespace Exam

/-! ## Selecting an answer -/

/-- The answer object `selectAnswer` leaves in `state`. -/
theorem selectAnswer_answers (q : Nat) (o : Int) (now : Int) (w : Session) :
    (selectAnswer q o now w).state.answers =
      if w.state.answers.lookup q = some o then w.state.answers.remove q
      else w.state.answers.assign q o := rfl

/-- Selecting the option a question already holds clears the question. -/
theorem selectAnswer_lookup_of_held (q : Nat) (o : Int) (now : Int) (w : Session)
    (h : w.state.answers.lookup q = some o) :
    (selectAnswer q o now w).state.answers.lookup q = none := by
  rw [selectAnswer_answers, if_pos h]
  exact AnswerMap.lookup_remove_self _ _

/-- Selecting any other option makes it the question's option. -/
theorem selectAnswer_lookup_of_not_held (q : Nat) (o : Int) (now : Int) (w : Session)
    (h : w.state.answers.lookup q ≠ some o) :
    (selectAnswer q o now w).state.answers.lookup q = some o := by
  rw [selectAnswer_answers, if_neg h]
  exact AnswerMap.lookup_assign_self _ _ _

/-- Selecting an option for one question leaves the other questions as they were. -/
theorem selectAnswer_lookup_other (q : Nat) (o : Int) (now : Int) (w : Session) (q' : Nat)
    (hne : q' ≠ q) :
    (selectAnswer q o now w).state.answers.lookup q' = w.state.answers.lookup q' := by
  rw [selectAnswer_answers]
  by_cases h : w.state.answers.lookup q = some o
  · rw [if_pos h]
    exact AnswerMap.lookup_remove_ne _ _ _ hne
  · rw [if_neg h]
    exact AnswerMap.lookup_assign_ne _ _ _ _ hne

/-- C5. For every answer map, question `q` and option `o`, `selectAnswer(q, o)` removes
the entry for `q` when the map already holds `o` for `q`, and otherwise sets the entry
for `q` to `o`, replacing any different prior option; in both cases the entry of
every other question is unchanged.  (An entry is a single optional option, so a
question never holds two.) -/
theorem selectAnswer_toggle (q : Nat) (o : Int) (now : Int) (w : Session) :
    (w.state.answers.lookup q = some o →
        (selectAnswer q o now w).state.answers.lookup q = none) ∧
      (w.state.answers.lookup q ≠ some o →
        (selectAnswer q o now w).state.answers.lookup q = some o) ∧
      (∀ q' : Nat, q' ≠ q →
        (selectAnswer q o now w).state.answers.lookup q' = w.state.answers.lookup q') :=
  ⟨selectAnswer_lookup_of_held q o now w, selectAnswer_lookup_of_not_held q o now w,
    selectAnswer_lookup_other q o now w⟩

/-- C6, as stated, fails: with option 2 held for question 1, selecting option 3 twice
leaves question 1 unanswered, not holding option 2. -/
theorem selectAnswer_twice_counterexample :
    (selectAnswer 1 3 2000
        (selectAnswer 1 3 1000
          { Session.initial (fun _ => none) with
            state := { State.initial with answers := ⟨[(1, 2)]⟩ } })).state.answers.lookup 1 = none ∧
      ({ Session.initial (fun _ => none) with
          state := { State.initial with answers := ⟨[(1, 2)]⟩ } } : Session).state.answers.lookup 1 =
        some 2 := by
  constructor <;> decide

/-- C6, amended. Two calls of `selectAnswer(q, o)` in a row leave the entry for `q` as
it was when `q` was unanswered or held `o`; when `q` held a different option, `q`
ends unanswered.  The entries of all other questions are as before. -/
theorem selectAnswer_twice (q : Nat) (o : Int) (now now' : Int) (w : Session) :
    ((w.state.answers.lookup q = none ∨ w.state.answers.lookup q = some o) →
        (selectAnswer q o now' (selectAnswer q o now w)).state.answers.lookup q =
          w.state.answers.lookup q) ∧
      (∀ o' : Int, w.state.answers.lookup q = some o' → o' ≠ o →
        (selectAnswer q o now' (selectAnswer q o now w)).state.answers.lookup q = none) ∧
      (∀ q' : Nat, q' ≠ q →
        (selectAnswer q o now' (selectAnswer q o now w)).state.answers.lookup q' =
          w.state.answers.lookup q') := by
  refine ⟨?_, ?_, ?_⟩
  · rintro (h | h)
    · have h1 := selectAnswer_lookup_of_not_held q o now w (by rw [h]; exact Option.noConfusion)
      rw [selectAnswer_lookup_of_held q o now' _ h1, h]
    · have h1 := selectAnswer_lookup_of_held q o now w h
      rw [selectAnswer_lookup_of_not_held q o now' _ (by rw [h1]; exact Option.noConfusion), h]
  · intro o' h hne
    have h1 := selectAnswer_lookup_of_not_held q o now w
      (by rw [h]; intro he; exact hne (Option.some.inj he))
    exact selectAnswer_lookup_of_held q o now' _ h1
  · intro q' hne
    rw [selectAnswer_lookup_other q o now' _ q' hne, selectAnswer_lookup_other q o now w q' hne]

/-! ## Progress persistence -/

/-- Reading the key just written gives the record written. -/
theorem Storage.setItem_self (st : Storage) (key : String) (data : Progress) :
    st.setItem key data key = some data := by
  simp [Storage.setItem]

/-- Reading the key just removed gives nothing. -/
theorem Storage.removeItem_self (st : Storage) (key : String) :
    st.removeItem key key = none := by
  simp [Storage.removeItem]

/-- Removing a key leaves the other keys as they were. -/
theorem Storage.removeItem_ne (st : Storage) (key k : String) (hne : k ≠ key) :
    st.removeItem key k = st k := by
  simp [Storage.removeItem, hne]

/-- C7. A stored progress record whose timestamp is more than 24 hours before the
clock reading is treated as absent by `loadProgress`: the record is removed from
storage (other keys are untouched), `confirm` is not asked, and `state`, with its
answer map and timer start, is unchanged.  A record at most 24 hours old is not
removed by the staleness rule: it stays in storage unless a restore offer is made
and declined. -/
theorem loadProgress_staleness (w : Session) (data : Progress) (nowCheck nowRestore : Int)
    (accept : Bool) (hrec : w.localStorage (getProgressKey w.state) = some data) :
    (nowCheck - data.timestamp > 24 * 60 * 60 * 1000 →
        (loadProgress nowCheck accept nowRestore w).localStorage (getProgressKey w.state) = none ∧
        (∀ k : String, k ≠ getProgressKey w.state →
          (loadProgress nowCheck accept nowRestore w).localStorage k = w.localStorage k) ∧
        (loadProgress nowCheck accept nowRestore w).confirms = w.confirms ∧
        (loadProgress nowCheck accept nowRestore w).state = w.state) ∧
      (nowCheck - data.timestamp ≤ 24 * 60 * 60 * 1000 →
        (data.answers.keys = [] ∨ accept = true) →
        (loadProgress nowCheck accept nowRestore w).localStorage (getProgressKey w.state) =
          some data) := by
  constructor
  · intro hstale
    have hw : loadProgress nowCheck accept nowRestore w =
        { w with localStorage := w.localStorage.removeItem (getProgressKey w.state) } := by
      unfold loadProgress
      rw [hrec]
      dsimp only
      rw [if_pos hstale]
    rw [hw]
    exact ⟨Storage.removeItem_self _ _, fun k hk => Storage.removeItem_ne _ _ _ hk, rfl, rfl⟩
  · intro hfresh hkeep
    have hns : ¬ nowCheck - data.timestamp > 24 * 60 * 60 * 1000 := not_lt.mpr hfresh
    unfold loadProgress
    rw [hrec]
    dsimp only
    rw [if_neg hns]
    rcases hkeep with hempty | hacc
    · rw [if_neg (by rw [hempty]; decide)]
      exact hrec
    · by_cases hk : data.answers.keys.length > 0
      · rw [if_pos hk, hacc, if_pos rfl]
        exact hrec
      · rw [if_neg hk]
        exact hrec

/-- C7, at a concrete input: a record saved at time 0 and loaded 25 hours later is
removed, and the answer map of the session stays empty. -/
theorem loadProgress_staleness_witness :
    (loadProgress 90000000 true 90000000
        (Session.initial (fun _ => some ⟨⟨[(1, 2)]⟩, 30, 0⟩))).localStorage
        (getProgressKey State.initial) = none ∧
      (loadProgress 90000000 true 90000000
        (Session.initial (fun _ => some ⟨⟨[(1, 2)]⟩, 30, 0⟩))).state = State.initial := by
  have h := (loadProgress_staleness (Session.initial (fun _ => some ⟨⟨[(1, 2)]⟩, 30, 0⟩))
    ⟨⟨[(1, 2)]⟩, 30, 0⟩ 90000000 90000000 true rfl).1 (by decide)
  exact ⟨h.1, h.2.2.2⟩

/-- What `loadProgress` does with a fresh record that has answers: it asks `confirm`,
then restores the record or removes it. -/
theorem loadProgress_of_fresh (w : Session) (data : Progress) (nowCheck nowRestore : Int)
    (accept : Bool) (hrec : w.localStorage (getProgressKey w.state) = some data)
    (hfresh : nowCheck - data.timestamp ≤ 24 * 60 * 60 * 1000)
    (hne : data.answers.keys ≠ []) :
    loadProgress nowCheck accept nowRestore w =
      if accept then
        { w with
          confirms := w.confirms ++ ["이전에 풀던 답안이 있습니다. 복원하시겠습니까?"]
          state :=
            { w.state with
              answers := data.answers
              startTime :=
                if data.elapsedSeconds ≠ 0 then some (nowRestore - data.elapsedSeconds * 1000)
                else w.state.startTime }
          toasts := w.toasts ++ [("이전 답안을 복원했습니다.", "success")] }
      else
        { w with
          confirms := w.confirms ++ ["이전에 풀던 답안이 있습니다. 복원하시겠습니까?"]
          localStorage := w.localStorage.removeItem (getProgressKey w.state) } := by
  have hns : ¬ nowCheck - data.timestamp > 24 * 60 * 60 * 1000 := not_lt.mpr hfresh
  have hk : data.answers.keys.length > 0 := List.length_pos.mpr hne
  unfold loadProgress
  rw [hrec]
  dsimp only
  rw [if_neg hns, if_pos hk]

/-- C10. For every fresh stored progress with a non-empty answer map, `loadProgress`
asks `confirm` once and applies the record only if the answer is yes: then the
session's answer map is the stored one and the record stays in storage.  If the
offer is declined, the stored record is removed and `state`, with its answer map
and timer start, is unchanged. -/
theorem loadProgress_offer (w : Session) (data : Progress) (nowCheck nowRestore : Int)
    (accept : Bool) (hrec : w.localStorage (getProgressKey w.state) = some data)
    (hfresh : nowCheck - data.timestamp ≤ 24 * 60 * 60 * 1000)
    (hne : data.answers.keys ≠ []) :
    (loadProgress nowCheck accept nowRestore w).confirms =
        w.confirms ++ ["이전에 풀던 답안이 있습니다. 복원하시겠습니까?"] ∧
      (accept = true →
        (loadProgress nowCheck accept nowRestore w).state.answers = data.answers ∧
        (loadProgress nowCheck accept nowRestore w).localStorage (getProgressKey w.state) =
          some data) ∧
      (accept = false →
        (loadProgress nowCheck accept nowRestore w).localStorage (getProgressKey w.state) = none ∧
        (loadProgress nowCheck accept nowRestore w).state = w.state ∧
        (loadProgress nowCheck accept nowRestore w).state.answers = w.state.answers ∧
        (loadProgress nowCheck accept nowRestore w).state.startTime = w.state.startTime) := by
  rw [loadProgress_of_fresh w data nowCheck nowRestore accept hrec hfresh hne]
  cases accept with
  | true => exact ⟨rfl, fun _ => ⟨rfl, hrec⟩, fun h => absurd h (by decide)⟩
  | false =>
    exact ⟨rfl, fun h => absurd h (by decide),
      fun _ => ⟨Storage.removeItem_self _ _, rfl, rfl, rfl⟩⟩

/-- C10, at a concrete input: a one-hour-old record with one answer is offered; declined,
it is removed and the session's answer map stays empty. -/
theorem loadProgress_offer_witness :
    (loadProgress 3600000 false 3600000
        (Session.initial (fun _ => some ⟨⟨[(1, 2)]⟩, 30, 0⟩))).localStorage
        (getProgressKey State.initial) = none ∧
      (loadProgress 3600000 false 3600000
        (Session.initial (fun _ => some ⟨⟨[(1, 2)]⟩, 30, 0⟩))).state.answers = AnswerMap.empty := by
  have h := (loadProgress_offer (Session.initial (fun _ => some ⟨⟨[(1, 2)]⟩, 30, 0⟩))
    ⟨⟨[(1, 2)]⟩, 30, 0⟩ 3600000 3600000 false rfl (by decide) (by decide)).2.2 rfl
  exact ⟨h.1, h.2.2.1⟩

/-- C8. For every non-empty answer map `A` and `elapsedSeconds` `e` held by the session,
`saveProgress` followed, less than 24 hours later, by `loadProgress` in a session of
the same identity over the same storage (the restore offer accepted) reads back a
record whose answers are `A` and whose `elapsedSeconds` is `e`, and sets the
session's answer map to `A`. -/
theorem saveProgress_loadProgress_roundtrip (w w2 : Session) (now nowCheck nowRestore : Int)
    (hne : w.state.answers.keys ≠ [])
    (hfresh : nowCheck - now < 24 * 60 * 60 * 1000)
    (hid : w2.state.subject = w.state.subject ∧ w2.state.year = w.state.year ∧
      w2.state.type = w.state.type)
    (hstore : w2.localStorage = (saveProgress now w).localStorage) :
    (∃ data : Progress, w2.localStorage (getProgressKey w2.state) = some data ∧
        data.answers = w.state.answers ∧ data.elapsedSeconds = w.state.elapsedSeconds) ∧
      (loadProgress nowCheck true nowRestore w2).state.answers = w.state.answers := by
  have hkey : getProgressKey w2.state = getProgressKey w.state := by
    unfold getProgressKey
    rw [hid.1, hid.2.1, hid.2.2]
  have hrec : w2.localStorage (getProgressKey w2.state) =
      some ⟨w.state.answers, w.state.elapsedSeconds, now⟩ := by
    rw [hstore, hkey]
    exact Storage.setItem_self _ _ _
  refine ⟨⟨_, hrec, rfl, rfl⟩, ?_⟩
  rw [loadProgress_of_fresh w2 ⟨w.state.answers, w.state.elapsedSeconds, now⟩ nowCheck
    nowRestore true hrec (le_of_lt hfresh) hne]
  rfl

/-- C8, at a concrete input: one answer and 30 elapsed seconds saved at time 0 and loaded
one hour later into a fresh page of the same identity. -/
theorem saveProgress_loadProgress_roundtrip_witness :
    (loadProgress 3600000 true 3600000
        (Session.initial
          (saveProgress 0
            { Session.initial (fun _ => none) with
              state := { State.initial with answers := ⟨[(1, 2)]⟩, elapsedSeconds := 30 } }
            ).localStorage)).state.answers = ⟨[(1, 2)]⟩ :=
  (saveProgress_loadProgress_roundtrip
    { Session.initial (fun _ => none) with
      state := { State.initial with answers := ⟨[(1, 2)]⟩, elapsedSeconds := 30 } }
    (Session.initial
      (saveProgress 0
        { Session.initial (fun _ => none) with
          state := { State.initial with answers := ⟨[(1, 2)]⟩, elapsedSeconds := 30 } }
        ).localStorage)
    0 3600000 3600000 (by decide) (by decide) ⟨rfl, rfl, rfl⟩ rfl).2

/-! ## Timer and initialisation -/

/-- Whenever `init` gets past the URL check, the timer start it leaves is the clock
reading of `startTimer`, whatever `loadProgress` restored before. -/
theorem init_startTime (env : InitEnv) (w : Session)
    (hok : (parseUrlParams env.subject env.year env.type w).2 = true) :
    (init env w).state.startTime = some env.nowTimer := by
  unfold init
  cases hp : parseUrlParams env.subject env.year env.type w with
  | mk w1 ok =>
    rw [hp] at hok
    dsimp only at hok ⊢
    rw [if_pos hok]
    rfl

/-- After `startTimer` at `now`, a poll `t` seconds later computes `elapsedSeconds = t`. -/
theorem updateTimer_after_startTimer (now : Int) (t : Int) (w : Session) :
    (updateTimer (now + 1000 * t) (startTimer now w)).state.elapsedSeconds = t := by
  show (now + 1000 * t - now) / 1000 = t
  rw [add_sub_cancel_left]
  exact Int.mul_ediv_cancel_left t (by decide)

/-- C9, on the code. A record with one answer and `elapsedSeconds = 600`, saved at
1000000 ms, is restored by `init` at 2000000 ms: `loadProgress` sets the start
instant to 2000000 - 600000, but `startTimer`, which runs after it at 2003000 ms,
overwrites the start instant, and the poll 5 seconds after the timer starts computes 5
elapsed seconds, not 605. -/
theorem init_restored_clock_restarts :
    (loadProgress 2000000 true 2000000
        (loadAnswers none
          (parseUrlParams (some "korean") (some 2024) none
            (Session.initial (fun k =>
              if k = "exam_progress_korean_2024_national" then some ⟨⟨[(1, 2)]⟩, 600, 1000000⟩
              else none))).1)).state.startTime = some 1400000 ∧
      (init ⟨some "korean", some 2024, none, none, 2000000, true, 2000000, none, 2003000⟩
        (Session.initial (fun k =>
          if k = "exam_progress_korean_2024_national" then some ⟨⟨[(1, 2)]⟩, 600, 1000000⟩
          else none))).state.answers = ⟨[(1, 2)]⟩ ∧
      (init ⟨some "korean", some 2024, none, none, 2000000, true, 2000000, none, 2003000⟩
        (Session.initial (fun k =>
          if k = "exam_progress_korean_2024_national" then some ⟨⟨[(1, 2)]⟩, 600, 1000000⟩
          else none))).state.startTime = some 2003000 ∧
      (updateTimer 2008000
        (init ⟨some "korean", some 2024, none, none, 2000000, true, 2000000, none, 2003000⟩
          (Session.initial (fun k =>
            if k = "exam_progress_korean_2024_national" then some ⟨⟨[(1, 2)]⟩, 600, 1000000⟩
            else none)))).state.elapsedSeconds = 5 := by
  refine ⟨?_, ?_, ?_, ?_⟩ <;> decide

end Exam

/-! ## Binary64 rounding and the score -/

/-- Rounding to an integer moves a number by at most one half. -/
theorem roundTiesEven_sub_le (x : ℚ) : |(roundTiesEven x : ℚ) - x| ≤ 1 / 2 := by
  have h0 : (⌊x⌋ : ℚ) ≤ x := Int.floor_le x
  have h1 : x < ⌊x⌋ + 1 := Int.lt_floor_add_one x
  unfold roundTiesEven
  dsimp only
  rw [abs_le]
  split_ifs with ha hb hc
  · constructor <;> linarith
  · push_cast; constructor <;> linarith
  · constructor <;> linarith
  · push_cast
    have : x - ⌊x⌋ = 1 / 2 := le_antisymm (not_lt.mp hb) (not_lt.mp ha)
    constructor <;> linarith

/-- A number strictly within one half of an integer rounds to it. -/
theorem roundTiesEven_eq_of_lt (x : ℚ) (m : ℤ) (h1 : (m : ℚ) - 1 / 2 < x)
    (h2 : x < m + 1 / 2) : roundTiesEven x = m := by
  unfold roundTiesEven
  dsimp only
  by_cases hm : (m : ℚ) ≤ x
  · have hf : ⌊x⌋ = m := Int.floor_eq_iff.mpr ⟨hm, by linarith⟩
    rw [hf, if_pos (by linarith)]
  · have hm' : x < m := not_le.mp hm
    have hf : ⌊x⌋ = m - 1 := Int.floor_eq_iff.mpr ⟨by push_cast; linarith, by push_cast; linarith⟩
    rw [hf]
    push_cast
    rw [if_neg (by linarith), if_pos (by linarith)]
    ring

/-- The unit in the last place of a positive number known to lie in the binade of `2 ^ k`. -/
theorem ulpExp_eq_of_le (q : ℚ) (k : ℤ) (hq : 0 < q) (hlo : (2 : ℚ) ^ k ≤ q)
    (hhi : q < 2 ^ (k + 1)) : ulpExp q = k - 52 := by
  unfold ulpExp
  rw [abs_of_pos hq]
  have h1 : k ≤ Int.log 2 q := (Int.zpow_le_iff_le_log (by decide) hq).mp (by exact_mod_cast hlo)
  have h2 : Int.log 2 q < k + 1 := (Int.lt_zpow_iff_log_lt (by decide) hq).mp (by exact_mod_cast hhi)
  omega

/-- A certificate for one rounding: the binade and the nearest significand. -/
theorem roundDouble_eq_of_lt (q : ℚ) (k m : ℤ) (hq : 0 < q) (hlo : (2 : ℚ) ^ k ≤ q)
    (hhi : q < 2 ^ (k + 1)) (h1 : (m : ℚ) - 1 / 2 < q / 2 ^ (k - 52))
    (h2 : q / 2 ^ (k - 52) < m + 1 / 2) : roundDouble q = m * 2 ^ (k - 52) := by
  unfold roundDouble
  rw [if_neg (ne_of_gt hq), ulpExp_eq_of_le q k hq hlo hhi, roundTiesEven_eq_of_lt _ m h1 h2]

/-- Binary64 rounding has relative error at most `2⁻⁵³`. -/
theorem roundDouble_sub_le (q : ℚ) : |roundDouble q - q| ≤ |q| / 2 ^ 53 := by
  unfold roundDouble
  by_cases hq : q = 0
  · simp [hq]
  · rw [if_neg hq]
    have habs : 0 < |q| := abs_pos.mpr hq
    have hpos : (0 : ℚ) < 2 ^ ulpExp q := zpow_pos (by norm_num) _
    have hlog : ((2 : ℕ) : ℚ) ^ Int.log 2 |q| ≤ |q| := Int.zpow_log_le_self (by decide) habs
    have hsplit : (2 : ℚ) ^ Int.log 2 |q| = 2 ^ ulpExp q * 2 ^ (52 : ℕ) := by
      rw [← zpow_natCast, ← zpow_add₀ (by norm_num : (2 : ℚ) ≠ 0)]
      congr 1
      unfold ulpExp
      push_cast
      ring
    have herr := roundTiesEven_sub_le (q / 2 ^ ulpExp q)
    have hfac : (roundTiesEven (q / 2 ^ ulpExp q) : ℚ) * 2 ^ ulpExp q - q =
        ((roundTiesEven (q / 2 ^ ulpExp q) : ℚ) - q / 2 ^ ulpExp q) * 2 ^ ulpExp q := by
      field_simp
    rw [hfac, abs_mul, abs_of_pos hpos]
    have hlog' : 2 ^ ulpExp q * 2 ^ (52 : ℕ) ≤ |q| := by
      rw [← hsplit]; exact_mod_cast hlog
    calc |(roundTiesEven (q / 2 ^ ulpExp q) : ℚ) - q / 2 ^ ulpExp q| * 2 ^ ulpExp q
        ≤ 1 / 2 * 2 ^ ulpExp q := by gcongr
      _ = 2 ^ ulpExp q * 2 ^ (52 : ℕ) / 2 ^ 53 := by norm_num; ring
      _ ≤ |q| / 2 ^ 53 := by gcongr

/-- The double `23 / 40`. -/
theorem fdiv_23_40 : fdiv 23 40 = 5179139571476070 * 2 ^ (-1 - 52 : ℤ) := by
  unfold fdiv
  apply roundDouble_eq_of_lt <;> norm_num

/-- The double `(23 / 40) * 100`, which is `57.49999999999999`. -/
theorem fmul_23_40 : fmul (5179139571476070 * 2 ^ (-1 - 52 : ℤ)) 100 = 8092405580431359 * 2 ^ (5 - 52 : ℤ) := by
  unfold fmul
  apply roundDouble_eq_of_lt <;> norm_num

/-- In doubles `Math.round((23 / 40) * 100)` is 57. -/
theorem jsRound_23_40 : jsRound (fmul (fdiv 23 40) 100) = 57 := by
  rw [fdiv_23_40, fmul_23_40]
  unfold jsRound
  rw [Int.floor_eq_iff]
  norm_num

/-- The computed percentage is within `(100 c / t) (2 u + u²)`, `u = 2⁻⁵³`, of the exact one. -/
theorem percent_error (c t : ℕ) (ht : 1 ≤ t) :
    |fmul (fdiv (c : ℚ) (t : ℚ)) 100 - 100 * (c : ℚ) / t| ≤
      100 * (c : ℚ) / t * (2 / 2 ^ 53 + 1 / 2 ^ 106) := by
  have htq : (0 : ℚ) < t := by exact_mod_cast ht
  have hx : (0 : ℚ) ≤ (c : ℚ) / t := div_nonneg (Nat.cast_nonneg c) htq.le
  have e1 : |fdiv (c : ℚ) (t : ℚ) - (c : ℚ) / t| ≤ (c : ℚ) / t / 2 ^ 53 := by
    have := roundDouble_sub_le ((c : ℚ) / t)
    rwa [abs_of_nonneg hx] at this
  have e2 : |fmul (fdiv (c : ℚ) (t : ℚ)) 100 - fdiv (c : ℚ) (t : ℚ) * 100| ≤
      |fdiv (c : ℚ) (t : ℚ) * 100| / 2 ^ 53 := roundDouble_sub_le _
  have hy : |fdiv (c : ℚ) (t : ℚ)| ≤ (c : ℚ) / t + (c : ℚ) / t / 2 ^ 53 := by
    have h := abs_le.mp e1
    rw [abs_le]
    constructor <;> linarith [h.1, h.2]
  have hy100 : |fdiv (c : ℚ) (t : ℚ) * 100| ≤ ((c : ℚ) / t + (c : ℚ) / t / 2 ^ 53) * 100 := by
    rw [abs_mul, abs_of_pos (by norm_num : (0 : ℚ) < 100)]
    exact mul_le_mul_of_nonneg_right hy (by norm_num)
  have e2' : |fmul (fdiv (c : ℚ) (t : ℚ)) 100 - fdiv (c : ℚ) (t : ℚ) * 100| ≤
      ((c : ℚ) / t + (c : ℚ) / t / 2 ^ 53) * 100 / 2 ^ 53 :=
    e2.trans (div_le_div_of_nonneg_right hy100 (by positivity))
  have a1 := abs_le.mp e1
  have a2 := abs_le.mp e2'
  rw [abs_le]
  constructor
  · have : 100 * (c : ℚ) / t * (2 / 2 ^ 53 + 1 / 2 ^ 106) =
        ((c : ℚ) / t + (c : ℚ) / t / 2 ^ 53) * 100 / 2 ^ 53 + 100 * ((c : ℚ) / t / 2 ^ 53) := by
      ring
    rw [this]
    have : 100 * (c : ℚ) / t = 100 * ((c : ℚ) / t) := by ring
    rw [this]
    linarith [a1.1, a2.1]
  · have : 100 * (c : ℚ) / t * (2 / 2 ^ 53 + 1 / 2 ^ 106) =
        ((c : ℚ) / t + (c : ℚ) / t / 2 ^ 53) * 100 / 2 ^ 53 + 100 * ((c : ℚ) / t / 2 ^ 53) := by
      ring
    rw [this]
    have : 100 * (c : ℚ) / t = 100 * ((c : ℚ) / t) := by ring
    rw [this]
    linarith [a1.2, a2.2]

/-- For at most `2 ^ 44` correct answers the error is below half a step `1 / t` of the
exact percentage. -/
theorem percent_error_lt (c t : ℕ) (ht : 1 ≤ t) (hc : c ≤ 2 ^ 44) :
    |fmul (fdiv (c : ℚ) (t : ℚ)) 100 - 100 * (c : ℚ) / t| < 1 / (2 * (t : ℚ)) := by
  have htq : (0 : ℚ) < t := by exact_mod_cast ht
  have hcq : (c : ℚ) ≤ 2 ^ 44 := by exact_mod_cast hc
  refine lt_of_le_of_lt (percent_error c t ht) ?_
  have : 100 * (c : ℚ) / t * (2 / 2 ^ 53 + 1 / 2 ^ 106) =
      (100 * (c : ℚ) * (2 / 2 ^ 53 + 1 / 2 ^ 106)) / t := by ring
  have h2 : 1 / (2 * (t : ℚ)) = 1 / 2 / t := by field_simp
  rw [this, h2]
  refine div_lt_div_of_pos_right ?_ htq
  have hle : 100 * (c : ℚ) * (2 / 2 ^ 53 + 1 / 2 ^ 106) ≤
      100 * 2 ^ 44 * (2 / 2 ^ 53 + 1 / 2 ^ 106) := by
    gcongr
  refine lt_of_le_of_lt hle ?_
  norm_num

/-- The rounded percentage against the exact round-half-up value: equal off the
halfway points, equal or one less on them. -/
theorem jsRound_percent (c t : ℕ) (ht : 1 ≤ t) (hc : c ≤ 2 ^ 44) :
    ((200 * c + t) % (2 * t) ≠ 0 →
        jsRound (fmul (fdiv (c : ℚ) (t : ℚ)) 100) = (((200 * c + t) / (2 * t) : ℕ) : ℤ)) ∧
      (jsRound (fmul (fdiv (c : ℚ) (t : ℚ)) 100) = (((200 * c + t) / (2 * t) : ℕ) : ℤ) ∨
        jsRound (fmul (fdiv (c : ℚ) (t : ℚ)) 100) = (((200 * c + t) / (2 * t) : ℕ) : ℤ) - 1) := by
  have htq : (0 : ℚ) < t := by exact_mod_cast ht
  have herr := abs_lt.mp (percent_error_lt c t ht hc)
  set z := fmul (fdiv (c : ℚ) (t : ℚ)) 100 with hz
  set K := (200 * c + t) / (2 * t) with hK
  set ρ := (200 * c + t) % (2 * t) with hρ
  have hdiv : 2 * t * K + ρ = 200 * c + t := Nat.div_add_mod _ _
  have hρlt : ρ < 2 * t := Nat.mod_lt _ (by omega)
  have hdivq : 2 * (t : ℚ) * K + ρ = 200 * c + t := by exact_mod_cast hdiv
  have hx : 100 * (c : ℚ) / t + 1 / 2 = K + ρ / (2 * t) := by
    have hsum : (K : ℚ) + ρ / (2 * t) = (2 * (t : ℚ) * K + ρ) / (2 * t) := by
      field_simp
      ring
    rw [hsum, hdivq]
    field_simp
    ring
  have hstep : (0 : ℚ) < 1 / (2 * (t : ℚ)) := by positivity
  have hρq : (ρ : ℚ) / (2 * t) ≤ 1 - 1 / (2 * t) := by
    rw [div_le_iff₀ (by positivity)]
    have : (ρ : ℚ) + 1 ≤ 2 * t := by exact_mod_cast hρlt
    field_simp
    linarith
  have hρ0 : (0 : ℚ) ≤ (ρ : ℚ) / (2 * t) := by positivity
  have hstep1 : 1 / (2 * (t : ℚ)) ≤ 1 / 2 := by
    rw [div_le_div_iff₀ (by positivity) (by norm_num)]
    have : (1 : ℚ) ≤ t := by exact_mod_cast ht
    linarith
  constructor
  · intro hne
    have hρ1 : 1 / (2 * (t : ℚ)) ≤ (ρ : ℚ) / (2 * t) := by
      have : (1 : ℚ) ≤ ρ := by exact_mod_cast Nat.one_le_iff_ne_zero.mpr hne
      gcongr
    unfold jsRound
    rw [Int.floor_eq_iff]
    push_cast
    constructor <;> linarith [herr.1, herr.2]
  · by_cases hge : (K : ℚ) ≤ z + 1 / 2
    · left
      unfold jsRound
      rw [Int.floor_eq_iff]
      push_cast
      constructor <;> linarith [herr.1, herr.2]
    · right
      unfold jsRound
      rw [Int.floor_eq_iff]
      push_cast
      constructor <;> linarith [herr.1, herr.2]

namespace Result

/-- The number of correct answers never exceeds the number of questions. -/
theorem gradeAll_correct_le (data : ResultData) : (gradeAll data).correct ≤ data.totalQuestions := by
  have h := foldl_gradeQuestion_counts data (List.range' 1 data.totalQuestions) ⟨0, 0, 0, []⟩
  simp only [List.length_range'] at h
  unfold gradeAll
  omega

/-- The double `1 / 8`, which is exact. -/
theorem fdiv_1_8 : fdiv 1 8 = 4503599627370496 * 2 ^ (-3 - 52 : ℤ) := by
  unfold fdiv
  apply roundDouble_eq_of_lt <;> norm_num

/-- The double `(1 / 8) * 100`, which is exactly 12.5. -/
theorem fmul_1_8 :
    fmul (4503599627370496 * 2 ^ (-3 - 52 : ℤ)) 100 = 7036874417766400 * 2 ^ (3 - 52 : ℤ) := by
  unfold fmul
  apply roundDouble_eq_of_lt <;> norm_num

/-- In doubles `Math.round((1 / 8) * 100)` is 13: the halfway point 12.5 rounds up. -/
theorem jsRound_1_8 : jsRound (fmul (fdiv 1 8) 100) = 13 := by
  rw [fdiv_1_8, fmul_1_8]
  unfold jsRound
  rw [Int.floor_eq_iff]
  norm_num

/-- C3, on the code. The score is meant to be the percentage rounded to the nearest
integer, halves up, `floor((200 * correct + totalQuestions) / (2 * totalQuestions))`,
and the code computes it so for 15 of 20 (75) and on the halfway point 1 of 8 (12.5
gives 13).  With 23 correct answers out of 40 questions the exact percentage is 57.5
and the formula gives 58, but the double `(23 / 40) * 100` is `57.49999999999999` and
the score `calculateResults` returns is 57. -/
theorem calculateResults_score_23_of_40 :
    ∃ r : Report,
      calculateResults
          (some ⟨"korean", 2024, "national", 40,
            ⟨(List.range' 1 23).map (fun i => (i, 1))⟩, List.replicate 40 1, 60⟩) = some r ∧
        r.correct = 23 ∧ r.totalQuestions = 40 ∧ r.score = some 57 ∧
        (200 * 23 + 40) / (2 * 40) = 58 ∧
        computeScore 1 8 = some 13 ∧ (200 * 1 + 8) / (2 * 8) = 13 ∧
        computeScore 15 20 = some 75 ∧ (200 * 15 + 20) / (2 * 20) = 75 := by
  refine ⟨_, rfl, by decide, rfl, ?_, by decide, ?_, by decide, ?_, by decide⟩
  · have hc : (gradeAll ⟨"korean", 2024, "national", 40,
        ⟨(List.range' 1 23).map (fun i => (i, 1))⟩, List.replicate 40 1, 60⟩).correct = 23 := by
      decide
    show computeScore _ 40 = some 57
    rw [hc]
    unfold computeScore
    rw [if_neg (by decide)]
    exact congrArg some jsRound_23_40
  · unfold computeScore
    rw [if_neg (by decide)]
    exact congrArg some (by exact_mod_cast jsRound_1_8)
  · unfold computeScore
    rw [if_neg (by decide)]
    exact congrArg some ((jsRound_percent 15 20 (by decide) (by norm_num)).1 (by decide))

/-- Where the computed score can differ from the exact rounding.  For every
`totalQuestions` from 1 to `2 ^ 44`, the score returned by `calculateResults` equals
`floor((200 * correct + totalQuestions) / (2 * totalQuestions))` whenever the exact
percentage is not halfway between two integers; on a halfway point it is that value
or, by a binary64 rounding error as for 23 of 40, one less. -/
theorem calculateResults_score (data : ResultData) (h1 : 1 ≤ data.totalQuestions)
    (hbound : data.totalQuestions ≤ 2 ^ 44) :
    ∃ r : Report, calculateResults (some data) = some r ∧ ∃ s : Int, r.score = some s ∧
      ((200 * r.correct + data.totalQuestions) % (2 * data.totalQuestions) ≠ 0 →
        s = (((200 * r.correct + data.totalQuestions) / (2 * data.totalQuestions) : ℕ) : ℤ)) ∧
      (s = (((200 * r.correct + data.totalQuestions) / (2 * data.totalQuestions) : ℕ) : ℤ) ∨
        s = (((200 * r.correct + data.totalQuestions) / (2 * data.totalQuestions) : ℕ) : ℤ) - 1) ∧
      computeScore 15 20 = some 75 := by
  have hc : (gradeAll data).correct ≤ 2 ^ 44 := (gradeAll_correct_le data).trans hbound
  have hne : ¬ data.totalQuestions = 0 := by omega
  have h := jsRound_percent (gradeAll data).correct data.totalQuestions h1 hc
  refine ⟨_, rfl, jsRound (fmul (fdiv ((gradeAll data).correct : ℚ) (data.totalQuestions : ℚ)) 100),
    ?_, h.1, h.2, ?_⟩
  · show computeScore _ _ = _
    unfold computeScore
    rw [if_neg hne]
  · unfold computeScore
    rw [if_neg (by decide)]
    exact congrArg some ((jsRound_percent 15 20 (by decide) (by norm_num)).1 (by decide))

/-- The score at a concrete input: 20 questions, the first 15 answered as the key says;
the score is 75. -/
theorem calculateResults_score_witness :
    ∃ r : Report,
      calculateResults
          (some ⟨"korean", 2024, "national", 20,
            ⟨(List.range' 1 15).map (fun i => (i, 1))⟩, List.replicate 20 1, 60⟩) = some r ∧
        r.correct = 15 ∧ r.score = some 75 := by
  obtain ⟨r, hr, s, hs, hexact, -, -⟩ :=
    calculateResults_score
      ⟨"korean", 2024, "national", 20,
        ⟨(List.range' 1 15).map (fun i => (i, 1))⟩, List.replicate 20 1, 60⟩
      (by decide) (by norm_num)
  have hr' := Option.some.inj hr
  have hc : r.correct = 15 := by
    rw [← hr']
    decide
  refine ⟨r, hr, hc, ?_⟩
  rw [hs]
  rw [hc] at hexact
  exact congrArg some (hexact (by decide))

end Result

namespace Exam

/-! ## Submitting, resetting, retrying -/

/-- After `stopTimer` no polling handle remains, and nothing else has changed. -/
theorem stopTimer_state (w : Session) :
    (stopTimer w).state = { w.state with timerInterval := false } ∧
      (stopTimer w).localStorage = w.localStorage := by
  unfold stopTimer
  cases h : w.state.timerInterval with
  | true => exact ⟨rfl, rfl⟩
  | false =>
    refine ⟨?_, rfl⟩
    simp only [Bool.false_eq_true, if_false]
    rw [← h]

/-- The record `saveProgress` leaves under the session's key. -/
theorem saveProgress_stored (now : Int) (w : Session) :
    (saveProgress now w).localStorage (getProgressKey (saveProgress now w).state) =
      some ⟨w.state.answers, w.state.elapsedSeconds, now⟩ :=
  Storage.setItem_self _ _ _

/-- C11. For every session state, `submitExam` stops the timer (no polling handle
remains), removes the persisted progress record of the session's identity, and hands
off a result record whose subject, year, type, totalQuestions, answers,
correctAnswers and elapsedSeconds are the session's values at the moment of
submission; it then navigates to the results page. -/
theorem submitExam_handoff (now : Int) (w : Session) :
    (submitExam now w).state.timerInterval = false ∧
      (submitExam now w).localStorage (getProgressKey w.state) = none ∧
      (submitExam now w).examResult =
        some ⟨w.state.subject, w.state.year, w.state.type, w.state.totalQuestions,
          w.state.answers, w.state.correctAnswers, w.state.elapsedSeconds, now⟩ ∧
      (submitExam now w).redirect = some "result.html" := by
  obtain ⟨hst, hls⟩ := stopTimer_state w
  have hkey : getProgressKey (stopTimer w).state = getProgressKey w.state := by
    rw [hst]
    rfl
  refine ⟨?_, ?_, ?_, rfl⟩
  · show (stopTimer w).state.timerInterval = false
    rw [hst]
  · show (stopTimer w).localStorage.removeItem (getProgressKey (stopTimer w).state)
      (getProgressKey w.state) = none
    rw [hkey]
    exact Storage.removeItem_self _ _
  · show some (ExamResult.mk (stopTimer w).state.subject (stopTimer w).state.year
      (stopTimer w).state.type (stopTimer w).state.totalQuestions (stopTimer w).state.answers
      (stopTimer w).state.correctAnswers (stopTimer w).state.elapsedSeconds now) = _
    rw [hst]

/-- C12. After every answer mutation (each `selectAnswer` call and each confirmed
`resetAnswers`), the progress record stored under the session's identity key has an
answer map equal to the session's post-mutation answer map and an `elapsedSeconds`
equal to the session's current `elapsedSeconds`. -/
theorem progress_saved_after_mutation (q : Nat) (o : Int) (now : Int) (w : Session) :
    (∃ data : Progress,
        (selectAnswer q o now w).localStorage (getProgressKey (selectAnswer q o now w).state) =
          some data ∧
        data.answers = (selectAnswer q o now w).state.answers ∧
        data.elapsedSeconds = (selectAnswer q o now w).state.elapsedSeconds) ∧
      (∃ data : Progress,
        (resetAnswers true now w).localStorage (getProgressKey (resetAnswers true now w).state) =
          some data ∧
        data.answers = (resetAnswers true now w).state.answers ∧
        data.elapsedSeconds = (resetAnswers true now w).state.elapsedSeconds) := by
  constructor
  · exact ⟨_, saveProgress_stored now _, rfl, rfl⟩
  · refine ⟨⟨AnswerMap.empty, w.state.elapsedSeconds, now⟩, ?_, rfl, rfl⟩
    exact Storage.setItem_self _ _ _

/-- C19. For every answer map, `resetAnswers` leaves the answer map empty (every
question unanswered) when `confirm` accepts, and leaves the answer map and the
persisted progress unchanged when it declines. -/
theorem resetAnswers_confirmed (now : Int) (w : Session) :
    (resetAnswers true now w).state.answers = AnswerMap.empty ∧
      (∀ q : Nat, (resetAnswers true now w).state.answers.lookup q = none) ∧
      (resetAnswers false now w).state.answers = w.state.answers ∧
      (resetAnswers false now w).localStorage = w.localStorage :=
  ⟨rfl, fun _ => rfl, rfl, rfl⟩

/-- C13. For every identity (subject, year, type), the storage key that `retryExam`
removes on the results side is the key under which `saveProgress` stores that
identity's progress on the exam side (`getProgressKey`), so after retry no progress
record remains for that identity. -/
theorem retryExam_removes_progress (subject type : String) (year : Int)
    (data : Result.ResultData) (w : Session) (now : Int)
    (hdata : data.subject = subject ∧ data.year = year ∧ data.type = type)
    (hstate : w.state.subject = some subject ∧ w.state.year = some year ∧
      w.state.type = some type) :
    Result.progressKey data = getProgressKey w.state ∧
      (saveProgress now w).localStorage (getProgressKey w.state) ≠ none ∧
      Result.retryExam (some data) (saveProgress now w).localStorage (getProgressKey w.state) =
        none := by
  have hkey : Result.progressKey data = getProgressKey w.state := by
    unfold Result.progressKey getProgressKey
    rw [hdata.1, hdata.2.1, hdata.2.2, hstate.1, hstate.2.1, hstate.2.2]
    rfl
  refine ⟨hkey, ?_, ?_⟩
  · have h := saveProgress_stored now w
    rw [show (saveProgress now w).state = w.state from rfl] at h
    rw [h]
    exact Option.noConfusion
  · show (saveProgress now w).localStorage.removeItem (Result.progressKey data)
      (getProgressKey w.state) = none
    rw [hkey]
    exact Storage.removeItem_self _ _

/-- C13, at a concrete identity: progress saved for korean 2024 national is gone after
a retry from that exam's results. -/
theorem retryExam_removes_progress_witness :
    Result.retryExam (some ⟨"korean", 2024, "national", 20, ⟨[(1, 2)]⟩, [], 60⟩)
        (saveProgress 1000
          { Session.initial (fun _ => none) with
            state :=
              { State.initial with
                subject := some "korean", year := some 2024, type := some "national"
                answers := ⟨[(1, 2)]⟩ } }).localStorage
        "exam_progress_korean_2024_national" = none :=
  (retryExam_removes_progress "korean" "national" 2024
    ⟨"korean", 2024, "national", 20, ⟨[(1, 2)]⟩, [], 60⟩
    { Session.initial (fun _ => none) with
      state :=
        { State.initial with
          subject := some "korean", year := some 2024, type := some "national"
          answers := ⟨[(1, 2)]⟩ } }
    1000 ⟨rfl, rfl, rfl⟩ ⟨rfl, rfl, rfl⟩).2.2

end Exam

/-! ## The review of the results page -/

namespace Result

/-- The status strings are pairwise different. -/
theorem Status.str_eq_iff (a b : Status) : a.str = b.str ↔ a = b := by
  cases a <;> cases b <;> decide

/-- No status is written as `all`. -/
theorem Status.str_ne_all (a : Status) : a.str ≠ "all" := by
  cases a <;> decide

/-- The results the grading loop records: one a question, in question order. -/
theorem gradeAll_questionResults (data : ResultData) :
    (gradeAll data).questionResults =
      (List.range' 1 data.totalQuestions).map (fun i =>
        (⟨i, data.answers.lookup i, data.correctAnswers.get? (i - 1),
          if data.answers.lookup i = none then Status.unanswered
          else if data.answers.lookup i = data.correctAnswers.get? (i - 1) then Status.correct
          else Status.incorrect⟩ : QuestionResult)) := by
  unfold gradeAll
  rw [foldl_gradeQuestion_questionResults]
  rfl

/-- The question numbers of the recorded results are `1..totalQuestions`. -/
theorem gradeAll_numbers (data : ResultData) :
    (gradeAll data).questionResults.map QuestionResult.number =
      List.range' 1 data.totalQuestions := by
  rw [gradeAll_questionResults, List.map_map]
  conv_rhs => rw [← List.map_id (List.range' 1 data.totalQuestions)]
  rfl

/-- The loop body keeps each counter equal to the number of recorded results of its
status. -/
theorem gradeQuestion_counted (data : ResultData) (acc : Tally) (i : Nat)
    (h : acc.correct =
        (acc.questionResults.filter (fun q => q.status = Status.correct)).length ∧
      acc.incorrect =
        (acc.questionResults.filter (fun q => q.status = Status.incorrect)).length ∧
      acc.unanswered =
        (acc.questionResults.filter (fun q => q.status = Status.unanswered)).length) :
    (gradeQuestion data acc i).correct =
        ((gradeQuestion data acc i).questionResults.filter
          (fun q => q.status = Status.correct)).length ∧
      (gradeQuestion data acc i).incorrect =
        ((gradeQuestion data acc i).questionResults.filter
          (fun q => q.status = Status.incorrect)).length ∧
      (gradeQuestion data acc i).unanswered =
        ((gradeQuestion data acc i).questionResults.filter
          (fun q => q.status = Status.unanswered)).length := by
  obtain ⟨h1, h2, h3⟩ := h
  unfold gradeQuestion
  dsimp only
  split_ifs <;> simp [List.filter_append, h1, h2, h3]

/-- Over any run of questions each counter stays the number of recorded results of its
status. -/
theorem foldl_gradeQuestion_counted (data : ResultData) (l : List Nat) (acc : Tally)
    (h : acc.correct =
        (acc.questionResults.filter (fun q => q.status = Status.correct)).length ∧
      acc.incorrect =
        (acc.questionResults.filter (fun q => q.status = Status.incorrect)).length ∧
      acc.unanswered =
        (acc.questionResults.filter (fun q => q.status = Status.unanswered)).length) :
    (l.foldl (gradeQuestion data) acc).correct =
        ((l.foldl (gradeQuestion data) acc).questionResults.filter
          (fun q => q.status = Status.correct)).length ∧
      (l.foldl (gradeQuestion data) acc).incorrect =
        ((l.foldl (gradeQuestion data) acc).questionResults.filter
          (fun q => q.status = Status.incorrect)).length ∧
      (l.foldl (gradeQuestion data) acc).unanswered =
        ((l.foldl (gradeQuestion data) acc).questionResults.filter
          (fun q => q.status = Status.unanswered)).length := by
  induction l generalizing acc with
  | nil => exact h
  | cons i rest ih => exact ih _ (gradeQuestion_counted data acc i h)

/-- The counters of the grading loop are the numbers of results of each status. -/
theorem gradeAll_counted (data : ResultData) :
    (gradeAll data).correct =
        ((gradeAll data).questionResults.filter (fun q => q.status = Status.correct)).length ∧
      (gradeAll data).incorrect =
        ((gradeAll data).questionResults.filter (fun q => q.status = Status.incorrect)).length ∧
      (gradeAll data).unanswered =
        ((gradeAll data).questionResults.filter (fun q => q.status = Status.unanswered)).length :=
  foldl_gradeQuestion_counted data _ _ ⟨rfl, rfl, rfl⟩

/-- The grid `renderResults` followed by `setFilter` shows. -/
theorem setFilter_renderResults_reviewGrid (data : ResultData) (filter : String) :
    (setFilter filter (renderResults (State.initial (some data)))).reviewGrid =
      if filter = "all" then (gradeAll data).questionResults
      else (gradeAll data).questionResults.filter (fun q => q.status.str = filter) := rfl

/-- The grid `setFilter` shows, from any state: the stored result sequence, filtered anew. -/
theorem setFilter_reviewGrid (filter : String) (s : State) :
    (setFilter filter s).reviewGrid =
      if filter = "all" then s.questionResults
      else s.questionResults.filter (fun q => q.status.str = filter) := rfl

/-- C14. For the result sequence of every report, from every state of the results page
that stores this sequence (whatever filter was active and whatever the grid showed
before) and for every filter `f` among correct, incorrect and unanswered, the view
computed by `setFilter(f)` consists of exactly the questions whose status is `f`, in
ascending question-number order, and its length is the report's counter for `f`; with
filter `all` the view is the full sequence.  `renderResults` stores the sequence and
`setFilter` keeps it stored, so this holds after any earlier filters. -/
theorem setFilter_view (data : ResultData) (r : Report) (s : State) (f : Status)
    (hr : calculateResults (some data) = some r)
    (hqs : s.questionResults = r.questionResults) :
    (setFilter f.str s).reviewGrid = r.questionResults.filter (fun q => q.status = f) ∧
      (∀ q : QuestionResult,
        q ∈ (setFilter f.str s).reviewGrid ↔ q ∈ r.questionResults ∧ q.status = f) ∧
      ((setFilter f.str s).reviewGrid.map QuestionResult.number).Pairwise (fun a b => a < b) ∧
      (setFilter f.str s).reviewGrid.length =
        (match f with
          | Status.correct => r.correct
          | Status.incorrect => r.incorrect
          | Status.unanswered => r.unanswered) ∧
      (setFilter "all" s).reviewGrid = r.questionResults ∧
      (∀ g : String,
        (setFilter g s).filter = g ∧ (setFilter g s).questionResults = r.questionResults) ∧
      (renderResults (State.initial (some data))).questionResults = r.questionResults := by
  have hrep := Option.some.inj hr
  have hrq : r.questionResults = (gradeAll data).questionResults := by rw [← hrep]
  have hview : (setFilter f.str s).reviewGrid =
      r.questionResults.filter (fun q => q.status = f) := by
    rw [setFilter_reviewGrid, if_neg (Status.str_ne_all f), hqs]
    apply List.filter_congr
    intro q _
    simp only [Status.str_eq_iff]
  refine ⟨hview, ?_, ?_, ?_, ?_, ?_, ?_⟩
  · intro q
    rw [hview, List.mem_filter]
    simp
  · rw [hview, hrq]
    have hsub : List.Sublist
        (((gradeAll data).questionResults.filter (fun q => q.status = f)).map
          QuestionResult.number) (List.range' 1 data.totalQuestions) := by
      rw [← gradeAll_numbers]
      exact (List.filter_sublist _).map _
    exact List.Pairwise.sublist hsub (List.pairwise_lt_range' 1 data.totalQuestions)
  · rw [hview, hrq]
    obtain ⟨h1, h2, h3⟩ := gradeAll_counted data
    cases f with
    | correct => rw [← hrep]; exact h1.symm
    | incorrect => rw [← hrep]; exact h2.symm
    | unanswered => rw [← hrep]; exact h3.symm
  · rw [setFilter_reviewGrid, if_pos rfl, hqs]
  · intro g
    exact ⟨rfl, hqs⟩
  · rw [hrq]
    rfl

/-- C14, at a concrete input: questions 1 and 3 are incorrect and question 2 is correct.
With filter `correct` active and the grid showing question 2 only, `setFilter` with
`incorrect` shows questions 1 and 3, and `setFilter` with `all` shows all three. -/
theorem setFilter_view_witness :
    (setFilter "incorrect"
        (setFilter "correct"
          (renderResults (State.initial (some ⟨"korean", 2024, "national", 3,
            ⟨[(1, 1), (2, 2), (3, 1)]⟩, [2, 2, 2], 60⟩))))).reviewGrid.map
        QuestionResult.number = [1, 3] ∧
      (setFilter "all"
        (setFilter "correct"
          (renderResults (State.initial (some ⟨"korean", 2024, "national", 3,
            ⟨[(1, 1), (2, 2), (3, 1)]⟩, [2, 2, 2], 60⟩))))).reviewGrid.map
        QuestionResult.number = [1, 2, 3] := by
  have h := setFilter_view
    ⟨"korean", 2024, "national", 3, ⟨[(1, 1), (2, 2), (3, 1)]⟩, [2, 2, 2], 60⟩ _
    (setFilter "correct"
      (renderResults (State.initial (some ⟨"korean", 2024, "national", 3,
        ⟨[(1, 1), (2, 2), (3, 1)]⟩, [2, 2, 2], 60⟩))))
    Status.incorrect rfl rfl
  constructor
  · rw [show Status.incorrect.str = "incorrect" from rfl] at h
    rw [h.1]
    decide
  · rw [h.2.2.2.2.1]
    decide

/-- An example of the filtered view: 20 questions all answered with option 1, the key differing at
questions 3, 8 and 15; the view of filter `incorrect` shows exactly these three. -/
theorem setFilter_view_example :
    ((setFilter "incorrect"
        (renderResults (State.initial (some ⟨"korean", 2024, "national", 20,
          ⟨(List.range' 1 20).map (fun i => (i, 1))⟩,
          [1, 1, 2, 1, 1, 1, 1, 3, 1, 1, 1, 1, 1, 1, 4, 1, 1, 1, 1, 1], 60⟩)))).reviewGrid.map
      QuestionResult.number) = [3, 8, 15] := by
  decide

/-- The element of the graded sequence at position `j` is the result of question `j + 1`. -/
theorem gradeAll_get? (data : ResultData) (j : Nat) (hj : j < data.totalQuestions) :
    ∃ q : QuestionResult, (gradeAll data).questionResults.get? j = some q ∧ q.number = j + 1 := by
  rw [gradeAll_questionResults]
  simp only [List.get?_eq_getElem?, List.getElem?_map]
  rw [List.getElem?_range' 1 1 hj]
  refine ⟨_, rfl, ?_⟩
  show 1 + 1 * j = j + 1
  omega

/-- The graded sequence has one result for each question. -/
theorem gradeAll_length (data : ResultData) :
    (gradeAll data).questionResults.length = data.totalQuestions := by
  rw [gradeAll_questionResults, List.length_map, List.length_range']

/-- In the graded sequence question `q` is found at index `q - 1`. -/
theorem findIndexByNumber_gradeAll (data : ResultData) (q : Nat) (h1 : 1 ≤ q)
    (hq : q ≤ data.totalQuestions) :
    findIndexByNumber (gradeAll data).questionResults q = ((q - 1 : Nat) : Int) := by
  have hfind : (gradeAll data).questionResults.findIdx? (fun x => x.number = q) =
      some (q - 1) := by
    rw [List.findIdx?_eq_some_iff_getElem]
    have hlen : q - 1 < (gradeAll data).questionResults.length := by
      rw [gradeAll_length]; omega
    refine ⟨hlen, ?_, ?_⟩
    · simp only [gradeAll_questionResults, List.getElem_map, List.getElem_range']
      simp only [decide_eq_true_eq]
      omega
    · intro j hj
      simp only [gradeAll_questionResults, List.getElem_map, List.getElem_range']
      simp only [decide_eq_true_eq]
      omega
  unfold findIndexByNumber
  rw [hfind]

/-- With the current index at position `j` of the graded sequence, the detail modal shows
question `j + 1`. -/
theorem updateDetailModal_gradeAll (data : ResultData) (s : State) (j : Nat)
    (hqs : s.questionResults = (gradeAll data).questionResults)
    (hidx : s.currentDetailIndex = (j : Int)) (hj : j < data.totalQuestions) :
    (updateDetailModal s).detail.map QuestionResult.number = some (j + 1) ∧
      (updateDetailModal s).currentDetailIndex = (j : Int) ∧
      (updateDetailModal s).questionResults = (gradeAll data).questionResults := by
  obtain ⟨q, hget, hnum⟩ := gradeAll_get? data j hj
  have hlook : jsIndex s.questionResults s.currentDetailIndex = some q := by
    unfold jsIndex
    rw [hidx, hqs, if_neg (by omega), Int.toNat_ofNat]
    exact hget
  unfold updateDetailModal
  rw [hlook]
  exact ⟨by simp [hnum], hidx, hqs⟩

/-- C15, as stated, fails: questions 1 and 3 are incorrect and question 2 is correct;
with filter `incorrect` the view shows questions 1 and 3, but after opening question 1
`nextDetail` shows question 2, which is correct, not question 3. -/
theorem nextDetail_filtered_counterexample :
    (setFilter "incorrect"
        (renderResults (State.initial (some ⟨"korean", 2024, "national", 3,
          ⟨[(1, 1), (2, 2), (3, 1)]⟩, [2, 2, 2], 60⟩)))).reviewGrid.map
        QuestionResult.number = [1, 3] ∧
      (nextDetail (showDetailModal 1
        (setFilter "incorrect"
          (renderResults (State.initial (some ⟨"korean", 2024, "national", 3,
            ⟨[(1, 1), (2, 2), (3, 1)]⟩, [2, 2, 2], 60⟩)))))).detail.map
        QuestionResult.number = some 2 ∧
      (nextDetail (showDetailModal 1
        (setFilter "incorrect"
          (renderResults (State.initial (some ⟨"korean", 2024, "national", 3,
            ⟨[(1, 1), (2, 2), (3, 1)]⟩, [2, 2, 2], 60⟩)))))).detail.map
        QuestionResult.status = some Status.correct := by
  refine ⟨?_, ?_, ?_⟩ <;> decide

/-- C15, amended. Whatever filter is active, after opening the detail of question `q`
(`showDetailModal`) the modal shows question `q`, and `nextDetail` and `prevDetail` move
to the adjacent question of the full result sequence: `nextDetail` shows question
`q + 1` when `q` is not the last question, `prevDetail` shows question `q - 1` when `q`
is not the first, whatever their status. -/
theorem detail_navigation (data : ResultData) (filter : String) (q : Nat) (h1 : 1 ≤ q)
    (hq : q ≤ data.totalQuestions) :
    (showDetailModal q (setFilter filter (renderResults (State.initial (some data))))).detail.map
        QuestionResult.number = some q ∧
      (q < data.totalQuestions →
        (nextDetail (showDetailModal q
          (setFilter filter (renderResults (State.initial (some data)))))).detail.map
          QuestionResult.number = some (q + 1)) ∧
      (1 < q →
        (prevDetail (showDetailModal q
          (setFilter filter (renderResults (State.initial (some data)))))).detail.map
          QuestionResult.number = some (q - 1)) := by
  have hqs : (setFilter filter (renderResults (State.initial (some data)))).questionResults =
      (gradeAll data).questionResults := rfl
  have hshow := updateDetailModal_gradeAll data
    { setFilter filter (renderResults (State.initial (some data))) with
      currentDetailIndex := findIndexByNumber
        (setFilter filter (renderResults (State.initial (some data)))).questionResults q }
    (q - 1) hqs (by rw [hqs]; exact findIndexByNumber_gradeAll data q h1 hq) (by omega)
  change (showDetailModal q (setFilter filter (renderResults (State.initial (some data))))).detail.map
      QuestionResult.number = some (q - 1 + 1) ∧
    (showDetailModal q (setFilter filter (renderResults (State.initial (some data))))).currentDetailIndex
      = ((q - 1 : Nat) : Int) ∧
    (showDetailModal q (setFilter filter (renderResults (State.initial (some data))))).questionResults
      = (gradeAll data).questionResults at hshow
  obtain ⟨hd, hi, hl⟩ := hshow
  refine ⟨?_, ?_, ?_⟩
  · rw [hd]; congr 1; omega
  · intro hlt
    unfold nextDetail
    rw [if_pos (by rw [hi, hl, gradeAll_length]; omega)]
    have h := updateDetailModal_gradeAll data
      { showDetailModal q (setFilter filter (renderResults (State.initial (some data)))) with
        currentDetailIndex :=
          (showDetailModal q
            (setFilter filter (renderResults (State.initial (some data))))).currentDetailIndex + 1 }
      q hl (by show _ + 1 = _; rw [hi]; omega) hlt
    exact h.1
  · intro hgt
    unfold prevDetail
    rw [if_pos (by rw [hi]; omega)]
    have h := updateDetailModal_gradeAll data
      { showDetailModal q (setFilter filter (renderResults (State.initial (some data)))) with
        currentDetailIndex :=
          (showDetailModal q
            (setFilter filter (renderResults (State.initial (some data))))).currentDetailIndex - 1 }
      (q - 2) hl (by show _ - 1 = _; rw [hi]; omega) (by omega)
    rw [h.1]; congr 1; omega

/-- C15 amended, at a concrete input: in the three-question example with filter
`incorrect`, after opening question 2, `prevDetail` shows question 1. -/
theorem detail_navigation_witness :
    (prevDetail (showDetailModal 2
        (setFilter "incorrect"
          (renderResults (State.initial (some ⟨"korean", 2024, "national", 3,
            ⟨[(1, 1), (2, 2), (3, 1)]⟩, [2, 2, 2], 60⟩)))))).detail.map
        QuestionResult.number = some 1 :=
  (detail_navigation ⟨"korean", 2024, "national", 3, ⟨[(1, 1), (2, 2), (3, 1)]⟩, [2, 2, 2], 60⟩
    "incorrect" 2 (by decide) (by decide)).2.2 (by decide)


/-- Refreshing the detail modal changes neither the index nor the results. -/
theorem updateDetailModal_frame (s : State) :
    (updateDetailModal s).currentDetailIndex = s.currentDetailIndex ∧
      (updateDetailModal s).questionResults = s.questionResults := by
  unfold updateDetailModal
  cases jsIndex s.questionResults s.currentDetailIndex with
  | none => exact ⟨rfl, rfl⟩
  | some q => exact ⟨rfl, rfl⟩

/-- A navigation click keeps the results and keeps an index that is within
`0..length-1` within it. -/
theorem DetailNav.run_bounds (click : DetailNav) (s : State)
    (h : 0 ≤ s.currentDetailIndex ∧
      s.currentDetailIndex ≤ (s.questionResults.length : Int) - 1) :
    (click.run s).questionResults = s.questionResults ∧
      0 ≤ (click.run s).currentDetailIndex ∧
      (click.run s).currentDetailIndex ≤ (s.questionResults.length : Int) - 1 := by
  cases click with
  | next =>
    show (nextDetail s).questionResults = _ ∧ 0 ≤ (nextDetail s).currentDetailIndex ∧
      (nextDetail s).currentDetailIndex ≤ _
    unfold nextDetail
    split_ifs with hlt
    · obtain ⟨hi, hl⟩ := updateDetailModal_frame
        { s with currentDetailIndex := s.currentDetailIndex + 1 }
      rw [hi, hl]
      refine ⟨rfl, ?_, ?_⟩
      · show 0 ≤ s.currentDetailIndex + 1
        omega
      · show s.currentDetailIndex + 1 ≤ _
        omega
    · exact ⟨rfl, h.1, h.2⟩
  | prev =>
    show (prevDetail s).questionResults = _ ∧ 0 ≤ (prevDetail s).currentDetailIndex ∧
      (prevDetail s).currentDetailIndex ≤ _
    unfold prevDetail
    split_ifs with hgt
    · obtain ⟨hi, hl⟩ := updateDetailModal_frame
        { s with currentDetailIndex := s.currentDetailIndex - 1 }
      rw [hi, hl]
      refine ⟨rfl, ?_, ?_⟩
      · show 0 ≤ s.currentDetailIndex - 1
        omega
      · show s.currentDetailIndex - 1 ≤ _
        omega
    · exact ⟨rfl, h.1, h.2⟩

/-- Every sequence of navigation clicks keeps the results and keeps an index that is
within `0..length-1` within it. -/
theorem runDetailNav_bounds (clicks : List DetailNav) (s : State)
    (h : 0 ≤ s.currentDetailIndex ∧
      s.currentDetailIndex ≤ (s.questionResults.length : Int) - 1) :
    (runDetailNav clicks s).questionResults = s.questionResults ∧
      0 ≤ (runDetailNav clicks s).currentDetailIndex ∧
      (runDetailNav clicks s).currentDetailIndex ≤ (s.questionResults.length : Int) - 1 := by
  induction clicks generalizing s with
  | nil => exact ⟨rfl, h.1, h.2⟩
  | cons click rest ih =>
    obtain ⟨hl, h0, h1⟩ := DetailNav.run_bounds click s h
    have hrest := ih (click.run s) ⟨h0, by rw [hl]; exact h1⟩
    rw [hl] at hrest
    exact hrest

/-- The index `findIndex` returns for a question number that occurs is a position of
the sequence. -/
theorem findIndexByNumber_bounds (questionResults : List QuestionResult) (n : Nat)
    (hex : ∃ q : QuestionResult, q ∈ questionResults ∧ q.number = n) :
    0 ≤ findIndexByNumber questionResults n ∧
      findIndexByNumber questionResults n ≤ (questionResults.length : Int) - 1 := by
  unfold findIndexByNumber
  cases hfind : questionResults.findIdx? (fun q => q.number = n) with
  | none =>
    rw [List.findIdx?_eq_none_iff] at hfind
    obtain ⟨q, hq, hn⟩ := hex
    have := hfind q hq
    simp [hn] at this
  | some i =>
    rw [List.findIdx?_eq_some_iff_getElem] at hfind
    obtain ⟨hlt, -, -⟩ := hfind
    dsimp only
    omega

/-- C16. For every non-empty result sequence, `nextDetail` at the last index and
`prevDetail` at the first index leave the state, and so the index, unchanged; hence,
starting from `showDetailModal` on an existing question number, every sequence of
`nextDetail` and `prevDetail` calls keeps the index within `0..length-1`. -/
theorem detail_index_within_bounds (s : State) (n : Nat) (clicks : List DetailNav)
    (hex : ∃ q : QuestionResult, q ∈ s.questionResults ∧ q.number = n) :
    (s.currentDetailIndex = (s.questionResults.length : Int) - 1 → nextDetail s = s) ∧
      (s.currentDetailIndex = 0 → prevDetail s = s) ∧
      0 ≤ (runDetailNav clicks (showDetailModal n s)).currentDetailIndex ∧
      (runDetailNav clicks (showDetailModal n s)).currentDetailIndex ≤
        (s.questionResults.length : Int) - 1 := by
  refine ⟨?_, ?_, ?_⟩
  · intro h
    unfold nextDetail
    rw [if_neg (by omega)]
  · intro h
    unfold prevDetail
    rw [if_neg (by omega)]
  · obtain ⟨hi, hl⟩ := updateDetailModal_frame
      { s with currentDetailIndex := findIndexByNumber s.questionResults n }
    have hb := findIndexByNumber_bounds s.questionResults n hex
    have hstart : 0 ≤ (showDetailModal n s).currentDetailIndex ∧
        (showDetailModal n s).currentDetailIndex ≤
          ((showDetailModal n s).questionResults.length : Int) - 1 := by
      unfold showDetailModal
      rw [hi, hl]
      exact hb
    have hl' : (showDetailModal n s).questionResults = s.questionResults := hl
    have h := runDetailNav_bounds clicks (showDetailModal n s) hstart
    rw [hl'] at h
    exact ⟨h.2.1, h.2.2⟩

/-- C16, at a concrete input: in the three-question example, opening question 3 and
clicking next, next, prev, next leaves the index within `0..2`. -/
theorem detail_index_within_bounds_witness :
    0 ≤ (runDetailNav [DetailNav.next, DetailNav.next, DetailNav.prev, DetailNav.next]
        (showDetailModal 3
          (renderResults (State.initial (some ⟨"korean", 2024, "national", 3,
            ⟨[(1, 1), (2, 2), (3, 1)]⟩, [2, 2, 2], 60⟩))))).currentDetailIndex ∧
      (runDetailNav [DetailNav.next, DetailNav.next, DetailNav.prev, DetailNav.next]
        (showDetailModal 3
          (renderResults (State.initial (some ⟨"korean", 2024, "national", 3,
            ⟨[(1, 1), (2, 2), (3, 1)]⟩, [2, 2, 2], 60⟩))))).currentDetailIndex ≤ 2 :=
  (detail_index_within_bounds
    (renderResults (State.initial (some ⟨"korean", 2024, "national", 3,
      ⟨[(1, 1), (2, 2), (3, 1)]⟩, [2, 2, 2], 60⟩)))
    3 [DetailNav.next, DetailNav.next, DetailNav.prev, DetailNav.next]
    ⟨⟨3, some 1, some 2, Status.incorrect⟩, by decide, rfl⟩).2.2

end Result

namespace Exam

/-! ## Page navigation -/

/-- C18, as stated, fails: on a 10-page document showing page 5, a request for page 999
leaves `currentPage` at 999 when the renderer delivers the page and at 5 when it does
not, never at 10; a request for page 0 leaves it at 0 or at 5, never at 1. -/
theorem renderPage_counterexample :
    (renderPage 999 true
        { Session.initial (fun _ => none) with
          state := { State.initial with pdfDoc := some 10, totalPages := 10, currentPage := 5 }
        }).state.currentPage = 999 ∧
      (renderPage 999 false
        { Session.initial (fun _ => none) with
          state := { State.initial with pdfDoc := some 10, totalPages := 10, currentPage := 5 }
        }).state.currentPage = 5 ∧
      (renderPage 0 true
        { Session.initial (fun _ => none) with
          state := { State.initial with pdfDoc := some 10, totalPages := 10, currentPage := 5 }
        }).state.currentPage = 0 ∧
      (renderPage 0 false
        { Session.initial (fun _ => none) with
          state := { State.initial with pdfDoc := some 10, totalPages := 10, currentPage := 5 }
        }).state.currentPage = 5 := by
  refine ⟨?_, ?_, ?_, ?_⟩ <;> decide

/-- The page `renderPage` leaves current: the requested one when a document is loaded and
the renderer delivers the page, else the page that was current. -/
theorem renderPage_currentPage (pageNum : Nat) (delivered : Bool) (w : Session) :
    (renderPage pageNum delivered w).state.currentPage =
        (if w.state.pdfDoc ≠ none ∧ delivered = true then pageNum else w.state.currentPage) ∧
      (renderPage pageNum delivered w).state.totalPages = w.state.totalPages := by
  unfold renderPage
  cases hdoc : w.state.pdfDoc with
  | none => simp
  | some n =>
    cases delivered with
    | true => simp
    | false => simp

/-- C18, amended. For every document with `totalPages >= 1` and a current page within
`[1, totalPages]`, the page controls keep `currentPage` within `[1, totalPages]`:
`nextPage` is a no-op on the last page and otherwise moves to `currentPage + 1`,
`prevPage` is a no-op on page 1 and otherwise moves to `currentPage - 1` (a move takes
effect when a document is loaded and the renderer delivers the page).  `renderPage(n)`
itself does not clamp: with a document loaded it sets `currentPage` to `n` when the
renderer delivers page `n` and leaves it unchanged when not. -/
theorem page_navigation (w : Session) (delivered : Bool) (h1 : 1 ≤ w.state.currentPage)
    (h2 : w.state.currentPage ≤ w.state.totalPages) :
    (1 ≤ (nextPage delivered w).state.currentPage ∧
        (nextPage delivered w).state.currentPage ≤ (nextPage delivered w).state.totalPages) ∧
      (1 ≤ (prevPage delivered w).state.currentPage ∧
        (prevPage delivered w).state.currentPage ≤ (prevPage delivered w).state.totalPages) ∧
      (w.state.currentPage = w.state.totalPages → nextPage delivered w = w) ∧
      (w.state.currentPage = 1 → prevPage delivered w = w) ∧
      (w.state.pdfDoc ≠ none → w.state.currentPage < w.state.totalPages →
        (nextPage true w).state.currentPage = w.state.currentPage + 1) ∧
      (w.state.pdfDoc ≠ none → 1 < w.state.currentPage →
        (prevPage true w).state.currentPage = w.state.currentPage - 1) ∧
      (w.state.pdfDoc ≠ none → ∀ n : Nat,
        (renderPage n true w).state.currentPage = n ∧
        (renderPage n false w).state.currentPage = w.state.currentPage) := by
  refine ⟨?_, ?_, ?_, ?_, ?_, ?_, ?_⟩
  · unfold nextPage
    split_ifs with hlt
    · obtain ⟨hc, ht⟩ := renderPage_currentPage (w.state.currentPage + 1) delivered w
      rw [hc, ht]
      split_ifs <;> omega
    · exact ⟨h1, h2⟩
  · unfold prevPage
    split_ifs with hgt
    · obtain ⟨hc, ht⟩ := renderPage_currentPage (w.state.currentPage - 1) delivered w
      rw [hc, ht]
      split_ifs <;> omega
    · exact ⟨h1, h2⟩
  · intro h
    unfold nextPage
    rw [if_neg (by omega)]
  · intro h
    unfold prevPage
    rw [if_neg (by omega)]
  · intro hdoc hlt
    unfold nextPage
    rw [if_pos hlt, (renderPage_currentPage _ true w).1, if_pos ⟨hdoc, rfl⟩]
  · intro hdoc hgt
    unfold prevPage
    rw [if_pos hgt, (renderPage_currentPage _ true w).1, if_pos ⟨hdoc, rfl⟩]
  · intro hdoc n
    constructor
    · rw [(renderPage_currentPage n true w).1, if_pos ⟨hdoc, rfl⟩]
    · rw [(renderPage_currentPage n false w).1, if_neg (by simp)]

/-- C18 amended, at a concrete input: on a 10-page document showing page 10, `nextPage`
changes nothing. -/
theorem page_navigation_witness :
    (nextPage true
        { Session.initial (fun _ => none) with
          state := { State.initial with pdfDoc := some 10, totalPages := 10, currentPage := 10 }
        }).state.currentPage = 10 :=
  congrArg (fun w : Session => w.state.currentPage)
    ((page_navigation
      { Session.initial (fun _ => none) with
        state := { State.initial with pdfDoc := some 10, totalPages := 10, currentPage := 10 } }
      true (by decide) (by decide)).2.2.1 rfl)

end Exam

/-! ## Exactly representable values and the zoom levels -/

/-- An integer rounds to itself. -/
theorem roundTiesEven_intCast (n : ℤ) : roundTiesEven (n : ℚ) = n :=
  roundTiesEven_eq_of_lt _ n (by linarith) (by linarith)

/-- A number with a significand below `2 ^ 53` is a binary64 number: rounding returns
it. -/
theorem roundDouble_exact (m e : ℤ) (hm : |m| < 2 ^ 53) :
    roundDouble ((m : ℚ) * 2 ^ e) = (m : ℚ) * 2 ^ e := by
  by_cases hm0 : m = 0
  · simp [roundDouble, hm0]
  have h2 : (2 : ℚ) ≠ 0 := by norm_num
  have hpow : (0 : ℚ) < 2 ^ e := zpow_pos (by norm_num) _
  have hq : (m : ℚ) * 2 ^ e ≠ 0 := mul_ne_zero (by exact_mod_cast hm0) (ne_of_gt hpow)
  have habs : |(m : ℚ) * 2 ^ e| < (2 : ℚ) ^ (e + 53) := by
    rw [abs_mul, abs_of_pos hpow, zpow_add₀ h2, mul_comm]
    have hmq : |(m : ℚ)| < 2 ^ (53 : ℕ) := by exact_mod_cast hm
    have : (2 : ℚ) ^ (53 : ℤ) = 2 ^ (53 : ℕ) := by norm_cast
    rw [this]
    exact mul_lt_mul_of_pos_left hmq hpow
  have hlog : Int.log 2 |(m : ℚ) * 2 ^ e| < e + 53 :=
    (Int.lt_zpow_iff_log_lt (by decide) (abs_pos.mpr hq)).mp (by exact_mod_cast habs)
  have hu : ulpExp ((m : ℚ) * 2 ^ e) ≤ e := by
    unfold ulpExp
    omega
  obtain ⟨k, hk⟩ := Int.eq_ofNat_of_zero_le (sub_nonneg.mpr hu)
  have he : e = ulpExp ((m : ℚ) * 2 ^ e) + k := by omega
  have hdiv : (m : ℚ) * 2 ^ e / 2 ^ ulpExp ((m : ℚ) * 2 ^ e) = ((m * 2 ^ k : ℤ) : ℚ) := by
    have hu0 : (2 : ℚ) ^ ulpExp ((m : ℚ) * 2 ^ e) ≠ 0 := ne_of_gt (zpow_pos (by norm_num) _)
    rw [div_eq_iff hu0]
    conv_lhs => rw [he, zpow_add₀ h2, zpow_natCast]
    push_cast
    ring
  unfold roundDouble
  rw [if_neg hq, hdiv, roundTiesEven_intCast]
  conv_rhs => rw [he, zpow_add₀ h2, zpow_natCast]
  push_cast
  ring

/-- A difference of two multiples of a quarter, each at most 12 quarters, is computed
exactly. -/
theorem fsub_quarters (a b : ℕ) (ha : a ≤ 12) (hb : b ≤ 12) :
    fsub ((a : ℚ) / 4) ((b : ℚ) / 4) = (a : ℚ) / 4 - (b : ℚ) / 4 := by
  have h : (a : ℚ) / 4 - (b : ℚ) / 4 = (((a : ℤ) - (b : ℤ) : ℤ) : ℚ) * 2 ^ (-2 : ℤ) := by
    push_cast
    norm_num
    ring
  unfold fsub
  rw [h]
  apply roundDouble_exact
  rw [abs_lt]
  constructor <;> omega

namespace Exam

/-- Every zoom level is a whole number of quarters, at most 12. -/
theorem zoomLevels_quarters (x : ℚ) (hx : x ∈ CONFIG.zoomLevels) :
    ∃ a : ℕ, a ≤ 12 ∧ x = (a : ℚ) / 4 := by
  simp only [CONFIG.zoomLevels, List.mem_cons, List.mem_singleton, List.not_mem_nil,
    or_false] at hx
  rcases hx with rfl | rfl | rfl | rfl | rfl | rfl | rfl
  · exact ⟨4, by decide, by norm_num⟩
  · exact ⟨5, by decide, by norm_num⟩
  · exact ⟨6, by decide, by norm_num⟩
  · exact ⟨7, by decide, by norm_num⟩
  · exact ⟨8, by decide, by norm_num⟩
  · exact ⟨10, by decide, by norm_num⟩
  · exact ⟨12, by decide, by norm_num⟩

/-- The difference of two zoom levels is computed exactly. -/
theorem fsub_zoomLevels (x y : ℚ) (hx : x ∈ CONFIG.zoomLevels) (hy : y ∈ CONFIG.zoomLevels) :
    fsub x y = x - y := by
  obtain ⟨a, ha, rfl⟩ := zoomLevels_quarters x hx
  obtain ⟨b, hb, rfl⟩ := zoomLevels_quarters y hy
  exact fsub_quarters a b ha hb

/-- At a zoom level, `findClosestZoomIndex` returns the index of that level. -/
theorem findClosestZoomIndex_level (i : Nat) (hi : i < CONFIG.zoomLevels.length) :
    findClosestZoomIndex (CONFIG.zoomLevels.getD i 0) = i := by
  have hmem : ∀ j : Nat, j < 7 → CONFIG.zoomLevels.getD j 0 ∈ CONFIG.zoomLevels := by
    intro j hj
    interval_cases j <;> simp [CONFIG.zoomLevels]
  have hsub : ∀ j : Nat, j < 7 →
      fsub (CONFIG.zoomLevels.getD j 0) (CONFIG.zoomLevels.getD i 0) =
        CONFIG.zoomLevels.getD j 0 - CONFIG.zoomLevels.getD i 0 :=
    fun j hj => fsub_zoomLevels _ _ (hmem j hj) (hmem i hi)
  unfold findClosestZoomIndex
  have hlen : CONFIG.zoomLevels.length - 1 = 6 := rfl
  rw [hlen]
  simp only [List.range', List.foldl, findClosestStep, jsAbs]
  rw [hsub 0 (by decide), hsub 1 (by decide), hsub 2 (by decide), hsub 3 (by decide),
    hsub 4 (by decide), hsub 5 (by decide), hsub 6 (by decide)]
  have hi7 : i < 7 := hi
  interval_cases i <;> norm_num [CONFIG.zoomLevels, abs_of_nonneg, abs_of_neg]


/-- Refreshing the zoom display leaves the zoom as it is. -/
theorem updateZoom_zoom (delivered : Bool) (w : Session) :
    (updateZoom delivered w).state.zoom = w.state.zoom := by
  unfold updateZoom renderPage
  cases w.state.pdfDoc with
  | none => rfl
  | some n =>
    cases delivered with
    | true => rfl
    | false => rfl

/-- C17. With zoom levels [1, 1.25, 1.5, 1.75, 2, 2.5, 3] and the current zoom equal to
the level at index `i`, `zoomIn` sets the zoom to the level at index `i + 1` when `i` is
not the last index and changes nothing at the maximum level 3; `zoomOut` sets it to
the level at index `i - 1` when `i > 0` and changes nothing at the minimum level 1;
`zoomIn` from 1.5 yields 1.75. -/
theorem zoom_steps (w : Session) (delivered : Bool) (i : Nat)
    (hi : i < CONFIG.zoomLevels.length) (hz : w.state.zoom = CONFIG.zoomLevels.getD i 0) :
    (i < 6 → (zoomIn delivered w).state.zoom = CONFIG.zoomLevels.getD (i + 1) 0) ∧
      (i = 6 → zoomIn delivered w = w ∧ w.state.zoom = 3) ∧
      (0 < i → (zoomOut delivered w).state.zoom = CONFIG.zoomLevels.getD (i - 1) 0) ∧
      (i = 0 → zoomOut delivered w = w ∧ w.state.zoom = 1) ∧
      (∀ v : Session, v.state.zoom = 1.5 → (zoomIn delivered v).state.zoom = 1.75) := by
  have hidx : findClosestZoomIndex w.state.zoom = i := by
    rw [hz]
    exact findClosestZoomIndex_level i hi
  have hlen : CONFIG.zoomLevels.length - 1 = 6 := rfl
  refine ⟨?_, ?_, ?_, ?_, ?_⟩
  · intro h
    unfold zoomIn
    dsimp only
    rw [hidx, hlen, if_pos h, updateZoom_zoom]
  · intro h
    constructor
    · unfold zoomIn
      dsimp only
      rw [hidx, hlen, if_neg (by omega)]
    · rw [hz, h]
      rfl
  · intro h
    unfold zoomOut
    dsimp only
    rw [hidx, if_pos h, updateZoom_zoom]
  · intro h
    constructor
    · unfold zoomOut
      dsimp only
      rw [hidx, if_neg (by omega)]
    · rw [hz, h]
      rfl
  · intro v hv
    have hv2 : findClosestZoomIndex v.state.zoom = 2 := by
      rw [hv]
      exact findClosestZoomIndex_level 2 (by decide)
    unfold zoomIn
    dsimp only
    rw [hv2, hlen, if_pos (by decide), updateZoom_zoom]
    rfl

/-- C17, at a concrete input: at zoom 2.5 (index 5) `zoomOut` yields 2. -/
theorem zoom_steps_witness :
    (zoomOut true
        { Session.initial (fun _ => none) with
          state := { State.initial with zoom := 2.5 } }).state.zoom = 2 :=
  (zoom_steps
    { Session.initial (fun _ => none) with state := { State.initial with zoom := 2.5 } }
    true 5 (by decide) rfl).2.2.1 (by decide)

end Exam

namespace Result

/-- C20. For every `totalQuestions >= 1`, every answer map and every correct-answer key,
the score returned by `calculateResults` is an integer (not `NaN`) with
`0 <= score <= 100`. -/
theorem calculateResults_score_range (data : ResultData) (h1 : 1 ≤ data.totalQuestions) :
    ∃ r : Report, calculateResults (some data) = some r ∧
      ∃ s : Int, r.score = some s ∧ 0 ≤ s ∧ s ≤ 100 := by
  have hne : ¬ data.totalQuestions = 0 := by omega
  have hct : ((gradeAll data).correct : ℚ) ≤ (data.totalQuestions : ℚ) := by
    exact_mod_cast gradeAll_correct_le data
  have htq : (0 : ℚ) < (data.totalQuestions : ℚ) := by exact_mod_cast h1
  have hx0 : (0 : ℚ) ≤ 100 * ((gradeAll data).correct : ℚ) / data.totalQuestions := by
    positivity
  have hx100 : 100 * ((gradeAll data).correct : ℚ) / data.totalQuestions ≤ 100 := by
    rw [div_le_iff₀ htq]
    linarith
  have herr := abs_le.mp (percent_error (gradeAll data).correct data.totalQuestions h1)
  have hsmall : 100 * ((gradeAll data).correct : ℚ) / data.totalQuestions *
      (2 / 2 ^ 53 + 1 / 2 ^ 106) ≤ 100 * (2 / 2 ^ 53 + 1 / 2 ^ 106) :=
    mul_le_mul_of_nonneg_right hx100 (by norm_num)
  have hsmall' : 100 * ((gradeAll data).correct : ℚ) / data.totalQuestions *
      (2 / 2 ^ 53 + 1 / 2 ^ 106) ≤
      100 * ((gradeAll data).correct : ℚ) / data.totalQuestions * 1 :=
    mul_le_mul_of_nonneg_left (by norm_num) hx0
  have hc : (100 : ℚ) * (2 / 2 ^ 53 + 1 / 2 ^ 106) < 1 / 2 := by norm_num
  refine ⟨_, rfl,
    jsRound (fmul (fdiv ((gradeAll data).correct : ℚ) (data.totalQuestions : ℚ)) 100), ?_, ?_, ?_⟩
  · show computeScore _ _ = _
    unfold computeScore
    rw [if_neg hne]
  · unfold jsRound
    rw [Int.le_floor]
    push_cast
    linarith [herr.1]
  · unfold jsRound
    have : ⌊fmul (fdiv ((gradeAll data).correct : ℚ) (data.totalQuestions : ℚ)) 100 + 1 / 2⌋ <
        101 := by
      rw [Int.floor_lt]
      push_cast
      linarith [herr.2]
    omega

/-- C20, at a concrete input: 40 questions with 23 answered as the key says; the score,
57, lies in `0..100`. -/
theorem calculateResults_score_range_witness :
    ∃ r : Report,
      calculateResults
          (some ⟨"korean", 2024, "national", 40,
            ⟨(List.range' 1 23).map (fun i => (i, 1))⟩, List.replicate 40 1, 60⟩) = some r ∧
        ∃ s : Int, r.score = some s ∧ 0 ≤ s ∧ s ≤ 100 :=
  calculateResults_score_range
    ⟨"korean", 2024, "national", 40,
      ⟨(List.range' 1 23).map (fun i => (i, 1))⟩, List.replicate 40 1, 60⟩ (by decide)

end Result

namespace Exam

/-! ## URL parameters and the answer key -/

/-- C21, as stated, fails: with `year=0` in the URL the year parameter is present and an
integer, yet `parseUrlParams` returns false and schedules the redirect. -/
theorem parseUrlParams_counterexample :
    (parseUrlParams (some "korean") (some 0) (some "local")
        (Session.initial (fun _ => none))).2 = false ∧
      (parseUrlParams (some "korean") (some 0) (some "local")
        (Session.initial (fun _ => none))).1.redirect = some "index.html" := by
  constructor <;> decide

/-- C21, amended. `parseUrlParams` returns false, with an error toast shown and the
redirect to the entry page scheduled, exactly when the subject parameter is missing
or empty or `parseInt` of the year parameter is `NaN` (missing or not starting with
an integer) or 0; otherwise it returns true, schedules nothing, and leaves the session
identity set to the given subject and year, with type equal to the given type, or
`national` when the type parameter is absent or empty. -/
theorem parseUrlParams_result (subject : Option String) (year : Option Int)
    (type : Option String) (w : Session) :
    ((parseUrlParams subject year type w).2 = false ↔
        (subject = none ∨ subject = some "" ∨ year = none ∨ year = some 0)) ∧
      ((parseUrlParams subject year type w).2 = false →
        (parseUrlParams subject year type w).1.redirect = some "index.html" ∧
        (parseUrlParams subject year type w).1.toasts =
          w.toasts ++ [("잘못된 접근입니다. 메인 페이지로 이동합니다.", "error")]) ∧
      ((parseUrlParams subject year type w).2 = true →
        (parseUrlParams subject year type w).1.redirect = w.redirect ∧
        (parseUrlParams subject year type w).1.toasts = w.toasts ∧
        (parseUrlParams subject year type w).1.state.subject = subject ∧
        (parseUrlParams subject year type w).1.state.year = year ∧
        (parseUrlParams subject year type w).1.state.type =
          (if type = none ∨ type = some "" then some "national" else type)) := by
  unfold parseUrlParams
  by_cases h : subject = none ∨ subject = some "" ∨ year = none ∨ year = some 0
  · dsimp only
    rw [if_pos h]
    exact ⟨⟨fun _ => h, fun _ => rfl⟩, fun _ => ⟨rfl, rfl⟩,
      fun hc => absurd (show false = true from hc) (by decide)⟩
  · dsimp only
    rw [if_neg h]
    exact ⟨⟨fun hc => absurd (show true = false from hc) (by decide), fun hc => absurd hc h⟩,
      fun hc => absurd (show true = false from hc) (by decide),
      fun _ => ⟨rfl, rfl, rfl, rfl, rfl⟩⟩

/-- C22, as stated, fails: a source that loads with `examInfo.totalQuestions = 0` and
three answers leaves `totalQuestions = 3`, and a source without `examInfo` and without
answers leaves `totalQuestions = 20`. -/
theorem loadAnswers_counterexample :
    (loadAnswers (some ⟨some [1, 2, 3], some 0⟩)
        (Session.initial (fun _ => none))).state.totalQuestions = 3 ∧
      (loadAnswers (some ⟨none, none⟩)
        (Session.initial (fun _ => none))).state.totalQuestions = 20 := by
  constructor <;> decide

/-- C22, amended. When the correct-answer source is absent or its fetch fails,
`loadAnswers` leaves `totalQuestions = 20` and does not touch the correct-answer key,
which is empty in a freshly loaded page.  When the source loads, the correct-answer
key is its answers array (empty if missing) and `totalQuestions` is
`examInfo.totalQuestions` if that is present and not 0, else the length of the answers
array if that is present and not 0, else 20. -/
theorem loadAnswers_result (w : Session) (data : AnswerFile) :
    (loadAnswers none w).state.totalQuestions = 20 ∧
      (loadAnswers none w).state.correctAnswers = w.state.correctAnswers ∧
      (∀ stored : Storage,
        (loadAnswers none (Session.initial stored)).state.correctAnswers = []) ∧
      (loadAnswers (some data) w).state.correctAnswers = data.answers.getD [] ∧
      (∀ n : Nat, data.totalQuestions = some n → n ≠ 0 →
        (loadAnswers (some data) w).state.totalQuestions = n) ∧
      ((data.totalQuestions = none ∨ data.totalQuestions = some 0) →
        ∀ key : List Int, data.answers = some key → key ≠ [] →
          (loadAnswers (some data) w).state.totalQuestions = key.length) ∧
      ((data.totalQuestions = none ∨ data.totalQuestions = some 0) →
        (data.answers = none ∨ data.answers = some []) →
          (loadAnswers (some data) w).state.totalQuestions = 20) := by
  refine ⟨rfl, rfl, fun _ => rfl, rfl, ?_, ?_, ?_⟩
  · intro n hn hn0
    simp [loadAnswers, hn, hn0]
  · intro h key hkey hne
    have hlen : key.length ≠ 0 := fun h0 => hne (List.length_eq_zero.mp h0)
    rcases h with h | h <;> simp [loadAnswers, h, hkey, hlen]
  · intro h h'
    rcases h with h | h <;> rcases h' with h' | h' <;>
      simp [loadAnswers, h, h', CONFIG.defaultQuestions]

end Exam

/-! ## The nearest zoom level -/

/-- A number with a significand of at most `2 ^ 53` is a binary64 number too. -/
theorem roundDouble_exact_le (m e : ℤ) (hm : |m| ≤ 2 ^ 53) :
    roundDouble ((m : ℚ) * 2 ^ e) = (m : ℚ) * 2 ^ e := by
  rcases lt_or_eq_of_le hm with hlt | heq
  · exact roundDouble_exact m e hlt
  · have h2 : (2 : ℚ) ≠ 0 := by norm_num
    have hshift : ((2 : ℚ) ^ (53 : ℕ)) * 2 ^ e = ((1 : ℤ) : ℚ) * 2 ^ (e + 53) := by
      rw [zpow_add₀ h2, ← zpow_natCast]
      push_cast
      ring
    have hshift' : (-(2 : ℚ) ^ (53 : ℕ)) * 2 ^ e = ((-1 : ℤ) : ℚ) * 2 ^ (e + 53) := by
      rw [zpow_add₀ h2, ← zpow_natCast]
      push_cast
      ring
    rcases (abs_eq (by norm_num : (0 : ℤ) ≤ 2 ^ 53)).mp heq with h | h
    · have hc : (m : ℚ) = 2 ^ (53 : ℕ) := by rw [h]; norm_cast
      rw [hc, hshift]
      exact roundDouble_exact 1 (e + 53) (by norm_num)
    · have hc : (m : ℚ) = -(2 : ℚ) ^ (53 : ℕ) := by rw [h]; norm_cast
      rw [hc, hshift']
      exact roundDouble_exact (-1) (e + 53) (by norm_num)

/-- A binary64 number is an integer multiple of its unit in the last place. -/
theorem exists_int_mul_ulp (z : ℚ) (hz : roundDouble z = z) :
    ∃ M : ℤ, z = (M : ℚ) * 2 ^ ulpExp z := by
  unfold roundDouble at hz
  by_cases h0 : z = 0
  · exact ⟨0, by simp [h0]⟩
  · rw [if_neg h0] at hz
    exact ⟨_, hz.symm⟩

/-- For a binary64 number `z` from 1 to `2 ^ 49` and a multiple `a / 4` of a quarter up
to 3, the difference `a / 4 - z` is computed exactly. -/
theorem fsub_quarter_exact (z : ℚ) (hz : roundDouble z = z) (h1 : 1 ≤ z) (h49 : z ≤ 2 ^ 49)
    (a : ℕ) (ha : a ≤ 12) : fsub ((a : ℚ) / 4) z = (a : ℚ) / 4 - z := by
  have h2 : (2 : ℚ) ≠ 0 := by norm_num
  have hpos : (0 : ℚ) < z := by linarith
  obtain ⟨M, hM⟩ := exists_int_mul_ulp z hz
  have hu : ulpExp z = Int.log 2 z - 52 := by
    unfold ulpExp
    rw [abs_of_pos hpos]
  have hL0 : 0 ≤ Int.log 2 z :=
    (Int.zpow_le_iff_le_log (by decide) hpos).mp (by simpa using h1)
  have hL50 : Int.log 2 z < 50 := by
    refine (Int.lt_zpow_iff_log_lt (by decide) hpos).mp ?_
    have : z < (2 : ℚ) ^ (50 : ℤ) := lt_of_le_of_lt h49 (by norm_num)
    exact_mod_cast this
  have hzlt : z < (2 : ℚ) ^ (Int.log 2 z + 1) := by
    exact_mod_cast Int.lt_zpow_succ_log_self (by decide : 1 < 2) z
  obtain ⟨n, hn⟩ := Int.eq_ofNat_of_zero_le (show 0 ≤ -2 - ulpExp z by omega)
  have hupos : (0 : ℚ) < 2 ^ ulpExp z := zpow_pos (by norm_num) _
  have hquarter : (2 : ℚ) ^ n * 2 ^ ulpExp z = 1 / 4 := by
    rw [← zpow_natCast, ← zpow_add₀ h2, ← hn]
    have : -2 - ulpExp z + ulpExp z = -2 := by ring
    rw [this]
    norm_num
  have hdiff : (a : ℚ) / 4 - z = (((a : ℤ) * 2 ^ n - M : ℤ) : ℚ) * 2 ^ ulpExp z := by
    push_cast
    rw [sub_mul, mul_assoc, hquarter, ← hM]
    ring
  have htop : (2 : ℚ) ^ (Int.log 2 z + 1) = 2 ^ (53 : ℕ) * 2 ^ ulpExp z := by
    rw [← zpow_natCast, ← zpow_add₀ h2, hu]
    congr 1
    push_cast
    ring
  have hge2 : (2 : ℚ) ≤ 2 ^ (Int.log 2 z + 1) := by
    have : (2 : ℚ) ^ (1 : ℤ) ≤ 2 ^ (Int.log 2 z + 1) :=
      zpow_le_zpow_right₀ (by norm_num) (by omega)
    simpa using this
  have ha3 : (a : ℚ) / 4 ≤ 3 := by
    have : (a : ℚ) ≤ 12 := by exact_mod_cast ha
    linarith
  have ha0 : (0 : ℚ) ≤ (a : ℚ) / 4 := by positivity
  have habs : |(a : ℚ) / 4 - z| ≤ 2 ^ (53 : ℕ) * 2 ^ ulpExp z := by
    rw [← htop, abs_le]
    constructor <;> linarith
  have hN : |((a : ℤ) * 2 ^ n - M : ℤ)| ≤ 2 ^ 53 := by
    have hcast : |((((a : ℤ) * 2 ^ n - M : ℤ) : ℚ))| * 2 ^ ulpExp z ≤
        2 ^ (53 : ℕ) * 2 ^ ulpExp z := by
      have hmul : |((((a : ℤ) * 2 ^ n - M : ℤ) : ℚ))| * 2 ^ ulpExp z = |(a : ℚ) / 4 - z| := by
        rw [hdiff, abs_mul, abs_of_pos hupos]
      rw [hmul]
      exact habs
    have hle := le_of_mul_le_mul_right hcast hupos
    rw [← Int.cast_abs] at hle
    exact_mod_cast hle
  unfold fsub
  rw [hdiff]
  exact roundDouble_exact_le _ _ hN

namespace Exam

/-- When the loop of `findClosestZoomIndex` has seen the indices `0..n`, it holds the
lowest index whose computed distance is least among them, and that distance. -/
theorem findClosest_foldl (z : ℚ) (n : Nat) :
    ((List.range' 1 n).foldl (findClosestStep z)
        (0, jsAbs (fsub (CONFIG.zoomLevels.getD 0 0) z))).2 =
        jsAbs (fsub (CONFIG.zoomLevels.getD
          ((List.range' 1 n).foldl (findClosestStep z)
            (0, jsAbs (fsub (CONFIG.zoomLevels.getD 0 0) z))).1 0) z) ∧
      ((List.range' 1 n).foldl (findClosestStep z)
        (0, jsAbs (fsub (CONFIG.zoomLevels.getD 0 0) z))).1 ≤ n ∧
      (∀ j : Nat, j ≤ n →
        jsAbs (fsub (CONFIG.zoomLevels.getD
          ((List.range' 1 n).foldl (findClosestStep z)
            (0, jsAbs (fsub (CONFIG.zoomLevels.getD 0 0) z))).1 0) z) ≤
          jsAbs (fsub (CONFIG.zoomLevels.getD j 0) z)) ∧
      (∀ j : Nat, j < ((List.range' 1 n).foldl (findClosestStep z)
            (0, jsAbs (fsub (CONFIG.zoomLevels.getD 0 0) z))).1 →
        jsAbs (fsub (CONFIG.zoomLevels.getD
          ((List.range' 1 n).foldl (findClosestStep z)
            (0, jsAbs (fsub (CONFIG.zoomLevels.getD 0 0) z))).1 0) z) <
          jsAbs (fsub (CONFIG.zoomLevels.getD j 0) z)) := by
  induction n with
  | zero =>
    refine ⟨rfl, le_refl _, ?_, ?_⟩
    · intro j hj
      have : j = 0 := by omega
      rw [this]
      exact le_refl _
    · intro j hj
      exact absurd hj (Nat.not_lt_zero j)
  | succ n ih =>
    rw [List.range'_concat, List.foldl_append]
    simp only [List.foldl_cons, List.foldl_nil, Nat.one_mul]
    generalize (List.range' 1 n).foldl (findClosestStep z)
      (0, jsAbs (fsub (CONFIG.zoomLevels.getD 0 0) z)) = r at ih ⊢
    obtain ⟨h2, hle, hmin, hfirst⟩ := ih
    unfold findClosestStep
    dsimp only
    by_cases hlt : jsAbs (fsub (CONFIG.zoomLevels.getD (1 + n) 0) z) < r.2
    · rw [if_pos hlt]
      rw [h2] at hlt
      refine ⟨rfl, by omega, ?_, ?_⟩
      · intro j hj
        by_cases hjn : j ≤ n
        · exact le_of_lt (lt_of_lt_of_le hlt (hmin j hjn))
        · have : j = 1 + n := by omega
          rw [this]
      · intro j hj
        exact lt_of_lt_of_le hlt (hmin j (by simp only at hj; omega))
    · rw [if_neg hlt]
      rw [h2] at hlt
      refine ⟨h2, by omega, ?_, hfirst⟩
      intro j hj
      by_cases hjn : j ≤ n
      · exact hmin j hjn
      · have : j = 1 + n := by omega
        rw [this]
        exact not_lt.mp hlt

/-- The index `findClosestZoomIndex` returns is an index of the level list, its computed
distance is least, and every lower index has a strictly greater computed distance. -/
theorem findClosestZoomIndex_computed (z : ℚ) :
    findClosestZoomIndex z ≤ 6 ∧
      (∀ j : Nat, j ≤ 6 →
        jsAbs (fsub (CONFIG.zoomLevels.getD (findClosestZoomIndex z) 0) z) ≤
          jsAbs (fsub (CONFIG.zoomLevels.getD j 0) z)) ∧
      (∀ j : Nat, j < findClosestZoomIndex z →
        jsAbs (fsub (CONFIG.zoomLevels.getD (findClosestZoomIndex z) 0) z) <
          jsAbs (fsub (CONFIG.zoomLevels.getD j 0) z)) := by
  obtain ⟨-, hle, hmin, hfirst⟩ := findClosest_foldl z 6
  exact ⟨hle, hmin, hfirst⟩

/-- Every index up to 6 holds a zoom level. -/
theorem zoomLevels_getD_mem (j : Nat) (hj : j ≤ 6) :
    CONFIG.zoomLevels.getD j 0 ∈ CONFIG.zoomLevels := by
  interval_cases j <;> simp [CONFIG.zoomLevels]

/-- The levels lie between 1 and 3; the first is 1 and the others are at least 1.25. -/
theorem zoomLevels_getD_bounds (j : Nat) (hj : j ≤ 6) :
    1 ≤ CONFIG.zoomLevels.getD j 0 ∧ CONFIG.zoomLevels.getD j 0 ≤ 3 ∧
      (0 < j → 5 / 4 ≤ CONFIG.zoomLevels.getD j 0) ∧ CONFIG.zoomLevels.getD 0 0 = 1 := by
  interval_cases j <;> norm_num [CONFIG.zoomLevels]

/-- For a binary64 zoom from 1 to `2 ^ 49` the distance to every level is computed
exactly. -/
theorem fsub_zoomLevel_exact (z : ℚ) (hz : roundDouble z = z) (h1 : 1 ≤ z) (h49 : z ≤ 2 ^ 49)
    (j : Nat) (hj : j ≤ 6) :
    jsAbs (fsub (CONFIG.zoomLevels.getD j 0) z) = |CONFIG.zoomLevels.getD j 0 - z| := by
  obtain ⟨a, ha, hx⟩ := zoomLevels_quarters _ (zoomLevels_getD_mem j hj)
  rw [hx]
  unfold jsAbs
  rw [fsub_quarter_exact z hz h1 h49 a ha]

/-- For a zoom from `-2 ^ 49` to 1 no level has a smaller computed distance than the
first level. -/
theorem fsub_zoomLevel_first_le (z : ℚ) (h1 : z ≤ 1) (h49 : -(2 ^ 49) ≤ z) (j : Nat)
    (hj : j ≤ 6) :
    jsAbs (fsub (CONFIG.zoomLevels.getD 0 0) z) ≤ jsAbs (fsub (CONFIG.zoomLevels.getD j 0) z) := by
  obtain ⟨hl1, hl3, hl54, h0⟩ := zoomLevels_getD_bounds j hj
  by_cases hj0 : j = 0
  · rw [hj0]
  · have hl := hl54 (Nat.pos_of_ne_zero hj0)
    rw [h0]
    generalize CONFIG.zoomLevels.getD j 0 = l at hl1 hl3 hl ⊢
    unfold jsAbs fsub
    have h49' : (-562949953421312 : ℚ) ≤ z := by
      have h := h49
      norm_num at h
      exact h
    have e0 := abs_le.mp (roundDouble_sub_le (1 - z))
    have ej := abs_le.mp (roundDouble_sub_le (l - z))
    rw [abs_of_nonneg (by linarith : (0 : ℚ) ≤ 1 - z)] at e0
    rw [abs_of_nonneg (by linarith : (0 : ℚ) ≤ l - z)] at ej
    have hc : (2 : ℚ) ^ 53 = 9007199254740992 := by norm_num
    rw [hc] at e0 ej
    have hr0 : 0 ≤ roundDouble (1 - z) := by linarith [e0.1]
    have hrj : 0 ≤ roundDouble (l - z) := by linarith [ej.1]
    rw [abs_of_nonneg hr0, abs_of_nonneg hrj]
    linarith [e0.2, ej.1]


/-- Every distance from a level to `10 ^ 20` is computed as `10 ^ 20`: the difference
`level - 10 ^ 20` rounds to `-10 ^ 20`. -/
theorem fsub_zoomLevel_huge (l : ℚ) (h1 : 1 ≤ l) (h3 : l ≤ 3) :
    fsub l 100000000000000000000 = -100000000000000000000 := by
  have hneg : l - 100000000000000000000 < 0 := by linarith
  have habs : |l - 100000000000000000000| = 100000000000000000000 - l := by
    rw [abs_of_neg hneg]
    ring
  have hu : ulpExp (l - 100000000000000000000) = 14 := by
    have h := ulpExp_eq_of_le (|l - 100000000000000000000|) 66 (abs_pos.mpr (ne_of_lt hneg))
      (by rw [habs]; norm_num; linarith) (by rw [habs]; norm_num; linarith)
    unfold ulpExp at h ⊢
    rw [abs_abs] at h
    omega
  have hq : (l - 100000000000000000000) / 2 ^ (14 : ℤ) = l / 16384 - 6103515625000000 := by
    norm_num
    ring
  have hr : roundTiesEven ((l - 100000000000000000000) / 2 ^ (14 : ℤ)) =
      -6103515625000000 := by
    rw [hq]
    apply roundTiesEven_eq_of_lt
    · push_cast
      linarith
    · push_cast
      linarith
  unfold fsub roundDouble
  rw [if_neg (ne_of_lt hneg), hu, hr]
  norm_num

/-- C23, as stated, fails: `10 ^ 20` is a binary64 number whose nearest level is 3, at
index 6, but every computed distance `Math.abs(level - 1e20)` is the same double
`1e20`, no distance is smaller than the first, and index 0 is returned. -/
theorem findClosestZoomIndex_counterexample :
    roundDouble 100000000000000000000 = 100000000000000000000 ∧
      findClosestZoomIndex 100000000000000000000 = 0 ∧
      |CONFIG.zoomLevels.getD 6 0 - 100000000000000000000| <
        |CONFIG.zoomLevels.getD 0 0 - 100000000000000000000| := by
  refine ⟨?_, ?_, ?_⟩
  · have h := roundDouble_exact 95367431640625 20 (by norm_num)
    norm_num at h
    exact h
  · obtain ⟨hle, -, hfirst⟩ := findClosestZoomIndex_computed 100000000000000000000
    by_contra hne
    have hlt := hfirst 0 (Nat.pos_of_ne_zero hne)
    obtain ⟨a1, a3, -, -⟩ := zoomLevels_getD_bounds
      (findClosestZoomIndex 100000000000000000000) hle
    obtain ⟨b1, b3, -, -⟩ := zoomLevels_getD_bounds 0 (by decide)
    rw [fsub_zoomLevel_huge _ a1 a3, fsub_zoomLevel_huge _ b1 b3] at hlt
    exact lt_irrefl _ hlt
  · norm_num [CONFIG.zoomLevels, abs_of_neg]

/-- C23, amended. For every binary64 zoom value `z` from `-2 ^ 49` to `2 ^ 49`,
`findClosestZoomIndex(z)` returns an index `i` into the zoom-level list with
`|levels[i] - z| <= |levels[j] - z|` for every index `j` (the nearest level), the
lowest such index on ties; in particular, for `z` equal to a listed level it returns
that level's index. -/
theorem findClosestZoomIndex_nearest (z : ℚ) (hz : roundDouble z = z)
    (hlo : -(2 ^ 49) ≤ z) (hhi : z ≤ 2 ^ 49) :
    findClosestZoomIndex z < CONFIG.zoomLevels.length ∧
      (∀ j : Nat, j < CONFIG.zoomLevels.length →
        |CONFIG.zoomLevels.getD (findClosestZoomIndex z) 0 - z| ≤
          |CONFIG.zoomLevels.getD j 0 - z|) ∧
      (∀ j : Nat, j < findClosestZoomIndex z →
        |CONFIG.zoomLevels.getD (findClosestZoomIndex z) 0 - z| <
          |CONFIG.zoomLevels.getD j 0 - z|) ∧
      (∀ i : Nat, i < CONFIG.zoomLevels.length →
        findClosestZoomIndex (CONFIG.zoomLevels.getD i 0) = i) := by
  obtain ⟨hle, hmin, hfirst⟩ := findClosestZoomIndex_computed z
  have hlen : CONFIG.zoomLevels.length = 7 := rfl
  refine ⟨by rw [hlen]; omega, ?_, ?_, findClosestZoomIndex_level⟩
  · intro j hj
    rw [hlen] at hj
    by_cases h1 : 1 ≤ z
    · have h := hmin j (by omega)
      rw [fsub_zoomLevel_exact z hz h1 hhi _ hle,
        fsub_zoomLevel_exact z hz h1 hhi j (by omega)] at h
      exact h
    · have hz1 : z ≤ 1 := le_of_lt (not_le.mp h1)
      have hi0 : findClosestZoomIndex z = 0 := by
        by_contra hne
        have hlt := hfirst 0 (Nat.pos_of_ne_zero hne)
        exact absurd (fsub_zoomLevel_first_le z hz1 hlo _ hle) (not_le.mpr hlt)
      obtain ⟨b1, -, -, b0⟩ := zoomLevels_getD_bounds j (by omega)
      rw [hi0, b0, abs_of_nonneg (by linarith), abs_of_nonneg (by linarith)]
      linarith
  · intro j hj
    by_cases h1 : 1 ≤ z
    · have h := hfirst j hj
      rw [fsub_zoomLevel_exact z hz h1 hhi _ hle,
        fsub_zoomLevel_exact z hz h1 hhi j (by omega)] at h
      exact h
    · have hz1 : z ≤ 1 := le_of_lt (not_le.mp h1)
      have hi0 : findClosestZoomIndex z = 0 := by
        by_contra hne
        have hlt := hfirst 0 (Nat.pos_of_ne_zero hne)
        exact absurd (fsub_zoomLevel_first_le z hz1 hlo _ hle) (not_le.mpr hlt)
      rw [hi0] at hj
      exact absurd hj (Nat.not_lt_zero j)

/-- C23 amended, at a concrete input: 1.125 lies halfway between the levels 1 and 1.25;
the lower index 0 is returned. -/
theorem findClosestZoomIndex_nearest_witness :
    findClosestZoomIndex 1.125 = 0 := by
  have hz : roundDouble (1.125 : ℚ) = 1.125 := by
    have h := roundDouble_exact 9 (-3) (by norm_num)
    norm_num at h ⊢
    exact h
  obtain ⟨hlt, -, hfirst, -⟩ :=
    findClosestZoomIndex_nearest 1.125 hz (by norm_num) (by norm_num)
  by_contra hne
  have h0 := hfirst 0 (Nat.pos_of_ne_zero hne)
  have hlen : CONFIG.zoomLevels.length = 7 := rfl
  rw [hlen] at hlt
  have hcases : ∀ i : Nat, i < 7 → i ≠ 0 →
      ¬ |CONFIG.zoomLevels.getD i 0 - 1.125| < |CONFIG.zoomLevels.getD 0 0 - 1.125| := by
    intro i hi hi0
    interval_cases i
    · exact absurd rfl hi0
    all_goals norm_num [CONFIG.zoomLevels, abs_of_nonneg, abs_of_neg]
  exact hcases _ hlt hne h0

/-! ## The zoom stays a listed level -/

/-- A zoom click leaves a listed level as zoom, whatever the zoom was before. -/
theorem ZoomOp.run_zoom_mem (click : ZoomOp) (delivered : Bool) (w : Session)
    (h : w.state.zoom ∈ CONFIG.zoomLevels) :
    (click.run delivered w).state.zoom ∈ CONFIG.zoomLevels := by
  have hidx := (findClosestZoomIndex_computed w.state.zoom).1
  have hlen : CONFIG.zoomLevels.length - 1 = 6 := rfl
  cases click with
  | zoomIn =>
    show (Exam.zoomIn delivered w).state.zoom ∈ _
    unfold Exam.zoomIn
    dsimp only
    split_ifs with hlt
    · rw [updateZoom_zoom]
      exact zoomLevels_getD_mem _ (by rw [hlen] at hlt; omega)
    · exact h
  | zoomOut =>
    show (Exam.zoomOut delivered w).state.zoom ∈ _
    unfold Exam.zoomOut
    dsimp only
    split_ifs with hgt
    · rw [updateZoom_zoom]
      exact zoomLevels_getD_mem _ (by omega)
    · exact h
  | zoomReset =>
    show (Exam.zoomReset delivered w).state.zoom ∈ _
    unfold Exam.zoomReset
    rw [updateZoom_zoom]
    exact zoomLevels_getD_mem 0 (by decide)

/-- C24. Starting from the default zoom 1, after every finite sequence of `zoomIn`,
`zoomOut` and `zoomReset` calls the session's zoom is a member of the level list
[1, 1.25, 1.5, 1.75, 2, 2.5, 3], hence between the minimum 1 and the maximum 3. -/
theorem runZoomOps_zoom_level (clicks : List (ZoomOp × Bool)) (w : Session)
    (hz : w.state.zoom = CONFIG.defaultZoom) :
    (runZoomOps clicks w).state.zoom ∈ CONFIG.zoomLevels ∧
      1 ≤ (runZoomOps clicks w).state.zoom ∧ (runZoomOps clicks w).state.zoom ≤ 3 := by
  have hstart : w.state.zoom ∈ CONFIG.zoomLevels := by
    rw [hz]
    exact zoomLevels_getD_mem 0 (by decide)
  have hmem : ∀ (cs : List (ZoomOp × Bool)) (v : Session),
      v.state.zoom ∈ CONFIG.zoomLevels → (runZoomOps cs v).state.zoom ∈ CONFIG.zoomLevels := by
    intro cs
    induction cs with
    | nil => exact fun v hv => hv
    | cons c rest ih =>
      intro v hv
      exact ih _ (ZoomOp.run_zoom_mem c.1 c.2 v hv)
  have hfinal := hmem clicks w hstart
  refine ⟨hfinal, ?_, ?_⟩
  · simp only [CONFIG.zoomLevels, List.mem_cons, List.mem_singleton, List.not_mem_nil,
      or_false] at hfinal
    rcases hfinal with h | h | h | h | h | h | h <;> rw [h] <;> norm_num
  · simp only [CONFIG.zoomLevels, List.mem_cons, List.mem_singleton, List.not_mem_nil,
      or_false] at hfinal
    rcases hfinal with h | h | h | h | h | h | h <;> rw [h] <;> norm_num

/-- C24, at a concrete input: from the initial session, the clicks in, in, out, reset,
in leave a zoom between 1 and 3. -/
theorem runZoomOps_zoom_level_witness :
    1 ≤ (runZoomOps
        [(ZoomOp.zoomIn, true), (ZoomOp.zoomIn, false), (ZoomOp.zoomOut, true),
          (ZoomOp.zoomReset, true), (ZoomOp.zoomIn, true)]
        (Session.initial (fun _ => none))).state.zoom ∧
      (runZoomOps
        [(ZoomOp.zoomIn, true), (ZoomOp.zoomIn, false), (ZoomOp.zoomOut, true),
          (ZoomOp.zoomReset, true), (ZoomOp.zoomIn, true)]
        (Session.initial (fun _ => none))).state.zoom ≤ 3 :=
  (runZoomOps_zoom_level
    [(ZoomOp.zoomIn, true), (ZoomOp.zoomIn, false), (ZoomOp.zoomOut, true),
      (ZoomOp.zoomReset, true), (ZoomOp.zoomIn, true)]
    (Session.initial (fun _ => none)) rfl).2

end Exam

end Cbt
